import Mathlib

set_option maxRecDepth 100000

/-!
Shallow embedding of the retrieval-augmented SQL generation pipeline of the
NaturalToSql repository (backend/app/services/llm_service.py and
backend/app/services/rag_service.py), with proofs of the specification
claims about it.

Python strings are modelled as lists of characters.  The Python string
methods used by the source (strip, split, startswith, endswith, lower, the
regex search of the fallback generator) are embedded as executable Lean
functions, and the service methods are translated statement by statement
from the source files.
-/

namespace NaturalToSql

/-- Python strings, modelled as lists of characters. -/
abbrev PyStr := List Char

/-- Conversion from Lean string literals to the Python string model. -/
def pystr (s : String) : PyStr := s.data

/-- The ASCII whitespace characters stripped by Python str.strip and
matched by the whitespace class of the regex module. -/
def isPySpace (c : Char) : Bool :=
  c == ' ' || c == '\t' || c == '\n' || c == '\r' || c == '\x0b' || c == '\x0c'

/-- Python str.lstrip with no argument: drop leading whitespace. -/
def lstrip (s : PyStr) : PyStr := s.dropWhile isPySpace

/-- Python str.rstrip with no argument: drop trailing whitespace. -/
def rstrip (s : PyStr) : PyStr := (s.reverse.dropWhile isPySpace).reverse

/-- Python str.strip with no argument: drop whitespace at both ends. -/
def strip (s : PyStr) : PyStr := rstrip (lstrip s)

/-- Index of the first occurrence of the pattern sub as a contiguous
substring of s, if any: the position Python str.find would report. -/
def findSub (sub : PyStr) : PyStr → Option Nat
  | [] => if sub.isEmpty then some 0 else none
  | c :: rest =>
    if sub.isPrefixOf (c :: rest) then some 0
    else (findSub sub rest).map (· + 1)

/-- Python substring membership: the test sub in s. -/
def containsSub (sub s : PyStr) : Bool := (findSub sub s).isSome

/-- Python s.split(sep)[0]: the text before the first occurrence of sep,
or the whole string when sep does not occur. -/
def splitPart0 (sep s : PyStr) : PyStr :=
  match findSub sep s with
  | some i => s.take i
  | none => s

/-- Python s.split(sep)[1]: the text between the first and the second
occurrence of sep.  The source only evaluates this after checking that sep
occurs in s, so the none branch (an IndexError in Python) is unreachable
at its call sites. -/
def splitPart1 (sep s : PyStr) : PyStr :=
  match findSub sep s with
  | some i => splitPart0 sep (s.drop (i + sep.length))
  | none => []

/-- Python s.split on the newline character. -/
def splitLines : PyStr → List PyStr
  | [] => [[]]
  | c :: rest =>
    if c = '\n' then [] :: splitLines rest
    else
      match splitLines rest with
      | [] => [[c]]
      | l :: ls => (c :: l) :: ls

/-- Python sep.join for a newline separator. -/
def joinLines : List PyStr → PyStr
  | [] => []
  | [l] => l
  | l :: l' :: ls => l ++ '\n' :: joinLines (l' :: ls)

/-- Python sep.join for an arbitrary separator. -/
def joinSep (sep : PyStr) : List PyStr → PyStr
  | [] => []
  | [p] => p
  | p :: p' :: ps => p ++ sep ++ joinSep sep (p' :: ps)

/-- Python s.endswith(c) for a one-character suffix c. -/
def endsWithChar (c : Char) (s : PyStr) : Bool :=
  match s.getLast? with
  | some d => d == c
  | none => false

/-- Python str.lower, on the ASCII letters used by the service. -/
def pyLower (s : PyStr) : PyStr := s.map Char.toLower

/-- The line filter of EnhancedLLMService._clean_sql_response: keep a
(stripped) line when it is non-empty and either does not start with the
comment marker -- at all, or starts with the explicitly spaced marker. -/
def keepLine (l : PyStr) : Bool :=
  !l.isEmpty && (!(pystr ("--")).isPrefixOf l || (pystr ("-- ")).isPrefixOf l)

/-- The markdown-fence extraction step of _clean_sql_response, applied to
the stripped response. -/
def cleanExtract (sql : PyStr) : PyStr :=
  if containsSub (pystr ("```sql")) sql then
    strip (splitPart0 (pystr ("```")) (splitPart1 (pystr ("```sql")) sql))
  else if containsSub (pystr ("```")) sql then
    strip (splitPart1 (pystr ("```")) sql)
  else sql

/-- The comment-discarding step of _clean_sql_response: strip each line,
keep the lines passing keepLine, rejoin with newlines. -/
def filterCommentLines (sql : PyStr) : PyStr :=
  joinLines (((splitLines sql).map strip).filter keepLine)

/-- The final step of _clean_sql_response: append a semicolon to the
right-stripped text unless one is already there. -/
def ensureSemicolon (sql : PyStr) : PyStr :=
  if endsWithChar ';' (rstrip sql) then sql else rstrip sql ++ pystr (";")

/-- EnhancedLLMService._clean_sql_response. -/
def clean_sql_response (response : PyStr) : PyStr :=
  ensureSemicolon (filterCommentLines (cleanExtract (strip response)))

/-- Match of the regex pattern under, whitespace, digits at the start of
s, returning the digit capture: the fallback generator uses it to extract
an age threshold. -/
def matchUnderAt (s : PyStr) : Option PyStr :=
  if (pystr ("under")).isPrefixOf s then
    let rest := s.drop 5
    let ws := rest.takeWhile isPySpace
    if ws.isEmpty then none
    else
      let ds := (rest.drop ws.length).takeWhile Char.isDigit
      if ds.isEmpty then none else some ds
  else none

/-- re.search for the pattern under, whitespace, digits: the capture of
the leftmost position where the whole pattern matches. -/
def searchUnderNum : PyStr → Option PyStr
  | [] => none
  | c :: rest =>
    match matchUnderAt (c :: rest) with
    | some ds => some ds
    | none => searchUnderNum rest

/-- EnhancedLLMService._fallback_sql: the rule-based fallback generator. -/
def fallback_sql (question : PyStr) : PyStr :=
  let ql := pyLower question
  if (containsSub (pystr ("delete")) ql || containsSub (pystr ("drop")) ql)
      && containsSub (pystr ("table")) ql then
    if containsSub (pystr ("all")) ql then
      pystr ("-- Drop all tables (CASCADE handles dependencies)\n    DROP TABLE IF EXISTS orders CASCADE;\n    DROP TABLE IF EXISTS users CASCADE;\n    DROP TABLE IF EXISTS query_history CASCADE;")
    else
      pystr ("-- Example: DROP TABLE table_name CASCADE;\nSELECT \x27Specify which table to drop\x27 as message;")
  else if containsSub (pystr ("users")) ql && containsSub (pystr ("city")) ql then
    pystr ("SELECT * FROM users WHERE city = \x27New York\x27 LIMIT 10;")
  else if containsSub (pystr ("orders")) ql
      && (containsSub (pystr ("amount")) ql || containsSub (pystr ("price")) ql) then
    pystr ("SELECT * FROM orders WHERE amount > 100 ORDER BY amount DESC LIMIT 10;")
  else if containsSub (pystr ("count")) ql && containsSub (pystr ("users")) ql then
    pystr ("SELECT COUNT(*) as user_count FROM users;")
  else if containsSub (pystr ("join")) ql
      || (containsSub (pystr ("users")) ql && containsSub (pystr ("orders")) ql) then
    pystr ("SELECT u.name, o.product, o.amount FROM users u JOIN orders o ON u.id = o.user_id LIMIT 10;")
  else if containsSub (pystr ("under")) ql && containsSub (pystr ("age")) ql then
    match searchUnderNum ql with
    | some age => pystr ("SELECT * FROM users WHERE age < ") ++ age ++ pystr (" LIMIT 10;")
    | none => pystr ("SELECT * FROM users WHERE age < 25 LIMIT 10;")
  else
    pystr ("-- Fallback query for: ") ++ question ++ pystr ("\nSELECT * FROM users LIMIT 10;")

/-- Metadata values of the knowledge store: the Python scalars accepted by
ChromaDB, plus the list values that the populate sanitizer must flatten
(list elements are modelled by their string form). -/
inductive MetaVal where
  | str (v : PyStr)
  | int (v : Int)
  | bool (v : Bool)
  | null
  | list (v : List PyStr)
deriving DecidableEq

/-- The metadata sanitizer of populate_knowledge_base: scalar values pass
through, list values are comma-joined into one string. -/
def cleanMetaVal : MetaVal → MetaVal
  | .list v => .str (joinSep (pystr (",")) v)
  | v => v

/-- A document of the sql_knowledge ChromaDB collection. -/
structure KnowledgeItem where
  id : PyStr
  content : PyStr
  metadata : List (PyStr × MetaVal)
deriving DecidableEq

/-- The sql_knowledge collection: its stored documents in insertion
order. -/
structure Store where
  docs : List KnowledgeItem
deriving DecidableEq

/-- collection.count() -/
def Store.count (s : Store) : Nat := s.docs.length

/-- collection.add, modelled as appending the new documents; the call
sites below only add documents whose ids are absent from the store. -/
def Store.addItems (s : Store) (items : List KnowledgeItem) : Store :=
  ⟨s.docs ++ items⟩

/-- Whether collection.get(ids=[id]) returns a non-empty id list. -/
def Store.hasId (s : Store) (id : PyStr) : Bool :=
  s.docs.any (fun d => d.id == id)

/-- Number of stored documents carrying a given id. -/
def Store.countId (s : Store) (id : PyStr) : Nat :=
  s.docs.countP (fun d => d.id == id)

/-- One retrieved context entry: a content and metadata pair. -/
structure ContextItem where
  content : PyStr
  metadata : List (PyStr × MetaVal)
deriving DecidableEq

/-- Exceptions are modelled by their message text. -/
abbrev Exn := PyStr

/-- EnhancedLLMService._build_rag_prompt. -/
def build_rag_prompt (question : PyStr) (context : List ContextItem) : PyStr :=
  let contextText := joinLines (context.map (fun item => pystr ("- ") ++ item.content))
  pystr ("You are a PostgreSQL expert. Generate accurate SQL queries based on the provided database knowledge.\n\nRELEVANT DATABASE KNOWLEDGE:\n")
    ++ contextText
    ++ pystr ("\n\nIMPORTANT RULES:\n1. Return ONLY the SQL query, no explanations or markdown\n2. Use proper PostgreSQL syntax\n3. Include appropriate JOINs when querying multiple tables\n4. Add LIMIT clause for SELECT * queries (typically LIMIT 10)\n5. Use table aliases for better readability\n6. For aggregations, use proper GROUP BY clauses\n7. Use single quotes for string literals\n8. End query with semicolon\n\nUSER QUESTION: ")
    ++ question
    ++ pystr ("\n\nSQL QUERY:")

/-- The body of the try block of EnhancedLLMService.generate_sql: the llm
client and the retrieval call are injected collaborators that either
return a value or raise.  The unused db_uri parameter of the source method
is omitted. -/
def generate_sql_attempt (llm : Option (PyStr → Except Exn PyStr))
    (retrieve : PyStr → Nat → Except Exn (List ContextItem))
    (question : PyStr) : Except Exn PyStr :=
  match llm with
  | none =>
    Except.ok (pystr ("-- No API key configured\n-- Generated from: ") ++ question
      ++ pystr ("\nSELECT * FROM users LIMIT 5;"))
  | some invoke =>
    match retrieve question 3 with
    | Except.error e => Except.error e
    | Except.ok context =>
      match invoke (build_rag_prompt question context) with
      | Except.error e => Except.error e
      | Except.ok response => Except.ok (clean_sql_response response)

/-- EnhancedLLMService.generate_sql: the whole try block, with every
exception resolved to the rule-based fallback. -/
def generate_sql (llm : Option (PyStr → Except Exn PyStr))
    (retrieve : PyStr → Nat → Except Exn (List ContextItem))
    (question : PyStr) : PyStr :=
  match generate_sql_attempt llm retrieve question with
  | Except.ok sql => sql
  | Except.error _ => fallback_sql question

/-- The QueryResponse schema of the generate-sql endpoint. -/
structure QueryResponse where
  sql : PyStr
  status : PyStr
  error : Option PyStr
deriving DecidableEq

/-- The generate-sql endpoint: generation never raises, so the only
exception source left in its try block is the history commit, injected
here as an outcome parameter. -/
def generate_sql_endpoint (llm : Option (PyStr → Except Exn PyStr))
    (retrieve : PyStr → Nat → Except Exn (List ContextItem))
    (commitOutcome : Except Exn Unit) (naturalQuery : PyStr) : QueryResponse :=
  let sql := generate_sql llm retrieve naturalQuery
  match commitOutcome with
  | Except.ok _ => ⟨sql, pystr ("success"), none⟩
  | Except.error e => ⟨[], pystr ("error"), some e⟩

/-- A database column as reported by SQLAlchemy schema introspection. -/
structure ColumnInfo where
  name : PyStr
  type : PyStr
  nullable : Bool
deriving DecidableEq

/-- A sampled database row, after _convert_row_to_json: column names paired
with the string form of their JSON-safe values. -/
abbrev Row := List (PyStr × PyStr)

/-- The per-column description built by populate_knowledge_base. -/
def columnDesc (col : ColumnInfo) : PyStr :=
  col.name ++ pystr (" (") ++ col.type
    ++ (if col.nullable then [] else pystr (", NOT NULL"))
    ++ (if col.name = pystr ("id") then pystr (", PRIMARY KEY") else [])
    ++ pystr (")")

/-- RAGService._get_table_description. -/
def get_table_description (t : PyStr) : PyStr :=
  if t = pystr ("users") then
    pystr ("customer information including personal details and location")
  else if t = pystr ("orders") then
    pystr ("purchase records with product details and amounts")
  else if t = pystr ("query_history") then
    pystr ("system log of generated SQL queries")
  else pystr ("data records")

/-- The schema document synthesized for one table. -/
def schemaItem (table : PyStr) (cols : List ColumnInfo) : KnowledgeItem :=
  { id := table ++ pystr ("_schema")
  , content := table ++ pystr (" table contains columns: ")
      ++ joinSep (pystr (", ")) (cols.map columnDesc)
      ++ pystr (". This table is used for storing ")
      ++ get_table_description table ++ pystr (".")
  , metadata := [(pystr ("type"), MetaVal.str (pystr ("schema"))),
      (pystr ("table"), MetaVal.str table)] }

/-- The sample-data document synthesized for one table with a non-empty
sample set; sampleStr stands for the json.dumps serialization. -/
def sampleItem (table : PyStr) (sampleStr : PyStr) : KnowledgeItem :=
  { id := table ++ pystr ("_samples")
  , content := pystr ("Sample data from ") ++ table ++ pystr (" table: ") ++ sampleStr
  , metadata := [(pystr ("type"), MetaVal.str (pystr ("sample_data"))),
      (pystr ("table"), MetaVal.str table)] }

/-- The static knowledge library of populate_knowledge_base: the
relationship fact, the query patterns, the worked examples and the
PostgreSQL tips, with their contents baked into the curator. -/
def staticKnowledgeItems : List KnowledgeItem :=
  [ { id := pystr ("users_orders_relationship")
    , content := pystr ("users and orders tables are related through user_id. orders.user_id is a foreign key referencing users.id. To get user information with their orders, use JOIN: SELECT u.name, o.product FROM users u JOIN orders o ON u.id = o.user_id")
    , metadata := [(pystr ("type"), MetaVal.str (pystr ("relationship"))),
        (pystr ("tables"), MetaVal.str (pystr ("users,orders")))] }
  , { id := pystr ("basic_select")
    , content := pystr ("To show all records from a table: SELECT * FROM table_name LIMIT 10")
    , metadata := [(pystr ("type"), MetaVal.str (pystr ("pattern"))),
        (pystr ("intent"), MetaVal.str (pystr ("basic_select")))] }
  , { id := pystr ("filter_by_column")
    , content := pystr ("To filter records by a column value: SELECT * FROM table_name WHERE column_name = \x27value\x27")
    , metadata := [(pystr ("type"), MetaVal.str (pystr ("pattern"))),
        (pystr ("intent"), MetaVal.str (pystr ("filter")))] }
  , { id := pystr ("count_records")
    , content := pystr ("To count records: SELECT COUNT(*) FROM table_name. To count by group: SELECT column_name, COUNT(*) FROM table_name GROUP BY column_name")
    , metadata := [(pystr ("type"), MetaVal.str (pystr ("pattern"))),
        (pystr ("intent"), MetaVal.str (pystr ("count")))] }
  , { id := pystr ("join_tables")
    , content := pystr ("To join users with orders: SELECT u.name, u.email, o.product, o.amount FROM users u JOIN orders o ON u.id = o.user_id")
    , metadata := [(pystr ("type"), MetaVal.str (pystr ("pattern"))),
        (pystr ("intent"), MetaVal.str (pystr ("join")))] }
  , { id := pystr ("aggregation")
    , content := pystr ("For aggregations like sum, average: SELECT SUM(amount) as total, AVG(amount) as average FROM orders. Group by user: SELECT u.name, SUM(o.amount) as total FROM users u JOIN orders o ON u.id = o.user_id GROUP BY u.id, u.name")
    , metadata := [(pystr ("type"), MetaVal.str (pystr ("pattern"))),
        (pystr ("intent"), MetaVal.str (pystr ("aggregation")))] }
  , { id := pystr ("sorting")
    , content := pystr ("To sort results: SELECT * FROM table_name ORDER BY column_name ASC/DESC. For latest records: ORDER BY date_column DESC LIMIT 10")
    , metadata := [(pystr ("type"), MetaVal.str (pystr ("pattern"))),
        (pystr ("intent"), MetaVal.str (pystr ("sorting")))] }
  , { id := pystr ("users_by_city")
    , content := pystr ("To find users from a specific city: SELECT * FROM users WHERE city = \x27New York\x27. To find users from multiple cities: SELECT * FROM users WHERE city IN (\x27New York\x27, \x27Chicago\x27)")
    , metadata := [(pystr ("type"), MetaVal.str (pystr ("example"))),
        (pystr ("intent"), MetaVal.str (pystr ("location_filter")))] }
  , { id := pystr ("orders_by_amount")
    , content := pystr ("To find orders above certain amount: SELECT * FROM orders WHERE amount > 500. To find expensive orders with user info: SELECT u.name, o.product, o.amount FROM users u JOIN orders o ON u.id = o.user_id WHERE o.amount > 500")
    , metadata := [(pystr ("type"), MetaVal.str (pystr ("example"))),
        (pystr ("intent"), MetaVal.str (pystr ("amount_filter")))] }
  , { id := pystr ("recent_orders")
    , content := pystr ("To find recent orders: SELECT * FROM orders ORDER BY order_date DESC LIMIT 10. To find orders from specific date: SELECT * FROM orders WHERE order_date >= \x272024-01-01\x27")
    , metadata := [(pystr ("type"), MetaVal.str (pystr ("example"))),
        (pystr ("intent"), MetaVal.str (pystr ("recent_data")))] }
  , { id := pystr ("user_order_summary")
    , content := pystr ("To get user order summary: SELECT u.name, COUNT(o.id) as order_count, SUM(o.amount) as total_spent FROM users u LEFT JOIN orders o ON u.id = o.user_id GROUP BY u.id, u.name")
    , metadata := [(pystr ("type"), MetaVal.str (pystr ("example"))),
        (pystr ("intent"), MetaVal.str (pystr ("user_summary")))] }
  , { id := pystr ("top_customers")
    , content := pystr ("To find top customers by spending: SELECT u.name, SUM(o.amount) as total_spent FROM users u JOIN orders o ON u.id = o.user_id GROUP BY u.id, u.name ORDER BY total_spent DESC LIMIT 10")
    , metadata := [(pystr ("type"), MetaVal.str (pystr ("example"))),
        (pystr ("intent"), MetaVal.str (pystr ("top_customers")))] }
  , { id := pystr ("age_filter")
    , content := pystr ("To filter users by age: SELECT * FROM users WHERE age > 25. To find users in age range: SELECT * FROM users WHERE age BETWEEN 25 AND 50")
    , metadata := [(pystr ("type"), MetaVal.str (pystr ("example"))),
        (pystr ("intent"), MetaVal.str (pystr ("age_filter")))] }
  , { id := pystr ("postgres_string_matching")
    , content := pystr ("For PostgreSQL string matching: Use LIKE for patterns (LIKE \x27%pattern%\x27), ILIKE for case-insensitive matching, or ~ for regex matching")
    , metadata := [(pystr ("type"), MetaVal.str (pystr ("tip"))),
        (pystr ("intent"), MetaVal.str (pystr ("string_matching")))] }
  , { id := pystr ("postgres_date_functions")
    , content := pystr ("PostgreSQL date functions: Use CURRENT_DATE for today, EXTRACT(YEAR FROM date_column) for year, DATE_TRUNC(\x27month\x27, date_column) for month grouping")
    , metadata := [(pystr ("type"), MetaVal.str (pystr ("tip"))),
        (pystr ("intent"), MetaVal.str (pystr ("date_functions")))] }
  , { id := pystr ("postgres_limits")
    , content := pystr ("Always use LIMIT in PostgreSQL for large result sets. For pagination, use LIMIT with OFFSET: SELECT * FROM table LIMIT 10 OFFSET 20")
    , metadata := [(pystr ("type"), MetaVal.str (pystr ("tip"))),
        (pystr ("intent"), MetaVal.str (pystr ("pagination")))] } ]

/-- Metadata sanitization applied to one document before insertion. -/
def cleanItemMeta (item : KnowledgeItem) : KnowledgeItem :=
  { item with metadata := item.metadata.map (fun kv => (kv.1, cleanMetaVal kv.2)) }

/-- The document list synthesized by populate_knowledge_base from the
introspection results plus the static library; the json.dumps
serialization of sampled rows is abstracted by the dump parameter. -/
def populateItems (schemaInfo : List (PyStr × List ColumnInfo))
    (sampleData : List (PyStr × List Row)) (dump : List Row → PyStr) :
    List KnowledgeItem :=
  (schemaInfo.map fun p => schemaItem p.1 p.2)
    ++ ((sampleData.filter fun p => !p.2.isEmpty).map fun p =>
          sampleItem p.1 (dump (p.2.take 3)))
    ++ staticKnowledgeItems

/-- RAGService.populate_knowledge_base: return immediately when the
collection already holds documents, otherwise synthesize the corpus,
sanitize every metadata value and bulk-add it. -/
def populate_knowledge_base (schemaInfo : List (PyStr × List ColumnInfo))
    (sampleData : List (PyStr × List Row)) (dump : List Row → PyStr)
    (s : Store) : Store :=
  if s.count > 0 then s
  else s.addItems ((populateItems schemaInfo sampleData dump).map cleanItemMeta)

/-- The result shape of collection.query for a single query text. -/
structure ChromaQueryResult where
  documents : List (List PyStr)
  metadatas : List (List (List (PyStr × MetaVal)))

/-- collection.query: at most nResults stored documents ordered by
semantic similarity; the embedding-based ranking is abstracted by the
rank parameter, a reordering of the stored documents. -/
def collectionQuery (rank : List KnowledgeItem → List KnowledgeItem)
    (s : Store) (nResults : Nat) : ChromaQueryResult :=
  ⟨[((rank s.docs).take nResults).map (fun d => d.content)],
   [((rank s.docs).take nResults).map (fun d => d.metadata)]⟩

/-- RAGService.retrieve_context: the collection.query call either raises
or returns a result; any exception becomes an empty context list, and an
empty first document list also yields an empty context. -/
def retrieve_context (queryOutcome : Except Exn ChromaQueryResult) : List ContextItem :=
  match queryOutcome with
  | Except.error _ => []
  | Except.ok results =>
    match results.documents with
    | [] => []
    | d0 :: _ =>
      if d0.isEmpty then []
      else (d0.zip (results.metadatas.headD [])).map fun p => ⟨p.1, p.2⟩

/-- The learned-example identifier of add_successful_query; the Python
hash builtin (deterministic within one process) is abstracted by the
pyHash parameter applied to the bare concatenation question + sql. -/
def learnedId (pyHash : PyStr → Int) (question sql : PyStr) : PyStr :=
  pystr ("learned_") ++ (toString (pyHash (question ++ sql))).data

/-- RAGService.add_successful_query: skip when a document with the
content-derived id already exists, otherwise add one learned example. -/
def add_successful_query (pyHash : PyStr → Int) (s : Store)
    (question sql : PyStr) : Store :=
  let queryId := learnedId pyHash question sql
  if s.hasId queryId then s
  else s.addItems
    [ { id := queryId
      , content := pystr ("Question: \x27") ++ question
          ++ pystr ("\x27 generates SQL: ") ++ sql
      , metadata := [(pystr ("type"), MetaVal.str (pystr ("learned_example"))),
          (pystr ("success"), MetaVal.bool true)] } ]

/-- EnhancedLLMService.learn_from_query. -/
def learn_from_query (pyHash : PyStr → Int) (s : Store)
    (question sql : PyStr) (success : Bool) : Store :=
  if success then add_successful_query pyHash s question sql else s

/-- Occurrence of sub as a contiguous substring of s. -/
def Occurs (sub s : PyStr) : Prop := ∃ l r, s = l ++ sub ++ r

/-- The kept lines of the cleaning pipeline for a given raw response. -/
def cleanLines (x : PyStr) : List PyStr :=
  ((splitLines (cleanExtract (strip x))).map strip).filter keepLine

/-- Replace the last line of a non-empty line list. -/
def modifyLastLine (f : PyStr → PyStr) : List PyStr → List PyStr
  | [] => []
  | [l] => [f l]
  | l :: l' :: ls => l :: modifyLastLine f (l' :: ls)

/-! ### Library wrappers and stripping lemmas -/

lemma isPrefixOf_true_iff {l₁ l₂ : PyStr} : l₁.isPrefixOf l₂ = true ↔ l₁ <+: l₂ :=
  List.isPrefixOf_iff_prefix

lemma nil_pref (l : PyStr) : [] <+: l := List.nil_prefix

lemma take_pref (n : Nat) (l : PyStr) : l.take n <+: l := List.take_prefix n l

lemma rev_pref {l₁ l₂ : PyStr} : l₁.reverse <+: l₂.reverse ↔ l₁ <:+ l₂ :=
  List.reverse_prefix

lemma dropWhile_append_cons {p : Char → Bool} {c : Char} (h : p c = false)
    (u v : PyStr) : List.dropWhile p (u ++ c :: v) = List.dropWhile p u ++ c :: v := by
  induction u with
  | nil => simp [List.dropWhile_cons, h]
  | cons d u ih =>
    by_cases hd : p d <;> simp [List.dropWhile_cons, hd, ih]

lemma lstrip_append_cons {c : Char} (h : isPySpace c = false) (u v : PyStr) :
    lstrip (u ++ c :: v) = lstrip u ++ c :: v :=
  dropWhile_append_cons h u v

lemma lstrip_cons_of_not {c : Char} (h : isPySpace c = false) (v : PyStr) :
    lstrip (c :: v) = c :: v := by
  simpa using lstrip_append_cons h [] v

lemma rstrip_append_last {c : Char} (h : isPySpace c = false) (w v : PyStr) :
    rstrip ((w ++ [c]) ++ v) = (w ++ [c]) ++ rstrip v := by
  unfold rstrip
  rw [List.reverse_append, List.reverse_append]
  simp only [List.reverse_cons, List.reverse_nil, List.nil_append, List.cons_append]
  rw [show v.reverse ++ c :: w.reverse = v.reverse ++ c :: w.reverse from rfl,
    dropWhile_append_cons h]
  simp [List.reverse_append]

lemma rstrip_concat {c : Char} (h : isPySpace c = false) (w : PyStr) :
    rstrip (w ++ [c]) = w ++ [c] := by
  simpa using rstrip_append_last h w []

lemma rstrip_nil : rstrip [] = [] := rfl

lemma lstrip_sublist (s : PyStr) : (lstrip s).Sublist s :=
  List.dropWhile_sublist isPySpace

lemma rstrip_sublist (s : PyStr) : (rstrip s).Sublist s := by
  have h := (List.dropWhile_sublist (l := s.reverse) isPySpace).reverse
  simpa using h

lemma strip_sublist (s : PyStr) : (strip s).Sublist s :=
  (rstrip_sublist (lstrip s)).trans (lstrip_sublist s)

lemma lstrip_suffix (s : PyStr) : lstrip s <:+ s := List.dropWhile_suffix isPySpace

lemma rstrip_pref (s : PyStr) : rstrip s <+: s := by
  have h := List.dropWhile_suffix (l := s.reverse) isPySpace
  refine List.reverse_suffix.mp ?_
  simpa [rstrip] using h

lemma strip_within (s : PyStr) : strip s <:+: s := by
  obtain ⟨r, hr⟩ := rstrip_pref (lstrip s)
  obtain ⟨l, hl⟩ := lstrip_suffix s
  refine ⟨l, r, ?_⟩
  simp only [strip]
  rw [List.append_assoc, hr, hl]

lemma lstrip_eq_cons_not_space {s t : PyStr} {c : Char} (h : lstrip s = c :: t) :
    isPySpace c = false := by
  induction s with
  | nil => simp [lstrip, List.dropWhile] at h
  | cons d s ih =>
    by_cases hd : isPySpace d
    · exact ih (by simpa [lstrip, List.dropWhile_cons, hd] using h)
    · have : d :: s = c :: t := by simpa [lstrip, List.dropWhile_cons, hd] using h
      cases this
      simpa using hd

lemma lstrip_idem (s : PyStr) : lstrip (lstrip s) = lstrip s := by
  cases h : lstrip s with
  | nil => rfl
  | cons c t =>
    have := lstrip_eq_cons_not_space h
    exact lstrip_cons_of_not this t

lemma rstrip_eq_concat_not_space {s w : PyStr} {c : Char} (h : rstrip s = w ++ [c]) :
    isPySpace c = false := by
  have h' : List.dropWhile isPySpace s.reverse = c :: w.reverse := by
    have := congrArg List.reverse h
    simpa [rstrip, List.reverse_append] using this
  exact lstrip_eq_cons_not_space (s := s.reverse) h'

lemma rstrip_idem (s : PyStr) : rstrip (rstrip s) = rstrip s := by
  rcases List.eq_nil_or_concat (rstrip s) with h | ⟨w, c, h⟩
  · rw [h]; rfl
  · rw [List.concat_eq_append] at h
    have hc := rstrip_eq_concat_not_space h
    rw [h]; exact rstrip_concat hc w

lemma lstripped_head_not_space {u : PyStr} {c : Char} (h : lstrip (c :: u) = c :: u) :
    isPySpace c = false :=
  lstrip_eq_cons_not_space h

lemma rstripped_last_not_space {w : PyStr} {c : Char} (h : rstrip (w ++ [c]) = w ++ [c]) :
    isPySpace c = false :=
  rstrip_eq_concat_not_space h

lemma stripped_lstripped {l : PyStr} (h : strip l = l) : lstrip l = l := by
  have h1 : (strip l).Sublist (lstrip l) := rstrip_sublist (lstrip l)
  have h2 : (lstrip l).Sublist l := lstrip_sublist l
  have hlen : (lstrip l).length = l.length := by
    have a := h1.length_le
    have b := h2.length_le
    rw [h] at a
    omega
  exact h2.eq_of_length hlen

lemma stripped_rstripped {l : PyStr} (h : strip l = l) : rstrip l = l := by
  have := stripped_lstripped h
  calc rstrip l = rstrip (lstrip l) := by rw [this]
    _ = l := h

lemma strip_idem (s : PyStr) : strip (strip s) = strip s := by
  have h1 : lstrip (strip s) = strip s := by
    rcases hh : rstrip (lstrip s) with _ | ⟨c, t⟩
    · have hs : strip s = [] := hh
      rw [hs]; rfl
    · have hpre : rstrip (lstrip s) <+: lstrip s := rstrip_pref (lstrip s)
      rw [hh] at hpre
      obtain ⟨r, hr⟩ := hpre
      have hls : lstrip s = c :: (t ++ r) := by rw [← hr]; rfl
      have hc : isPySpace c = false := by
        have h2 : lstrip (lstrip s) = lstrip s := lstrip_idem s
        rw [hls] at h2
        exact lstripped_head_not_space h2
      have hs : strip s = c :: t := hh
      rw [hs]
      exact lstrip_cons_of_not hc t
  calc strip (strip s) = rstrip (strip s) := by rw [strip, h1]
    _ = rstrip (rstrip (lstrip s)) := rfl
    _ = rstrip (lstrip s) := rstrip_idem _
    _ = strip s := rfl

/-! ### Substring occurrence and findSub correctness -/

lemma occurs_nil {sub : PyStr} : Occurs sub [] ↔ sub = [] := by
  constructor
  · rintro ⟨l, r, h⟩
    have := congrArg List.length h
    simp at this
    exact List.eq_nil_of_length_eq_zero (by omega)
  · rintro rfl; exact ⟨[], [], rfl⟩

lemma occurs_of_pref {sub s : PyStr} (h : sub <+: s) : Occurs sub s := by
  obtain ⟨r, hr⟩ := h
  exact ⟨[], r, by rw [← hr]; rfl⟩

lemma occurs_cons_iff {sub s : PyStr} {c : Char} :
    Occurs sub (c :: s) ↔ sub <+: (c :: s) ∨ Occurs sub s := by
  constructor
  · rintro ⟨l, r, h⟩
    cases l with
    | nil => exact Or.inl ⟨r, by simpa using h.symm⟩
    | cons d l =>
      right
      refine ⟨l, r, ?_⟩
      have := h
      simp only [List.cons_append] at this
      exact (List.cons.injEq .. ▸ this).2
  · rintro (h | ⟨l, r, h⟩)
    · exact occurs_of_pref h
    · exact ⟨c :: l, r, by simp [h]⟩

lemma occurs_cons_of_occurs {sub s : PyStr} {c : Char} (h : Occurs sub s) :
    Occurs sub (c :: s) :=
  occurs_cons_iff.mpr (Or.inr h)

lemma findSub_isSome_iff {sub : PyStr} : ∀ {s : PyStr},
    (findSub sub s).isSome = true ↔ Occurs sub s := by
  intro s
  induction s with
  | nil =>
    by_cases h : sub = [] <;> simp [findSub, List.isEmpty_iff, h, occurs_nil]
  | cons c rest ih =>
    by_cases h : sub.isPrefixOf (c :: rest)
    · simp [findSub, h, occurs_cons_iff, isPrefixOf_true_iff.mp h]
    · have hnp : ¬ sub <+: (c :: rest) := fun hc => h (isPrefixOf_true_iff.mpr hc)
      simp [findSub, h, occurs_cons_iff, hnp, ih]

lemma containsSub_true_iff {sub s : PyStr} : containsSub sub s = true ↔ Occurs sub s :=
  findSub_isSome_iff

lemma containsSub_false_iff {sub s : PyStr} : containsSub sub s = false ↔ ¬ Occurs sub s := by
  rw [← containsSub_true_iff]
  cases h : containsSub sub s <;> simp

lemma occurs_of_within {sub t s : PyStr} (ht : t <:+: s) (h : Occurs sub t) :
    Occurs sub s := by
  obtain ⟨u, v, huv⟩ := ht
  obtain ⟨l, r, hlr⟩ := h
  refine ⟨u ++ l, r ++ v, ?_⟩
  rw [← huv, hlr]
  simp [List.append_assoc]

lemma occurs_of_strip {sub s : PyStr} (h : Occurs sub (strip s)) : Occurs sub s :=
  occurs_of_within (strip_within s) h

lemma occurs_singleton {c : Char} {s : PyStr} : Occurs [c] s ↔ c ∈ s := by
  constructor
  · rintro ⟨l, r, h⟩
    subst h
    simp
  · intro h
    obtain ⟨u, v, huv⟩ := List.append_of_mem h
    exact ⟨u, v, by simp [huv]⟩

lemma occurs_head_mem {c : Char} {w s : PyStr} (h : Occurs (c :: w) s) : c ∈ s := by
  obtain ⟨l, r, hlr⟩ := h
  subst hlr
  simp

lemma findSub_of_isPrefixOf {sub s : PyStr} (h : sub.isPrefixOf s = true) :
    findSub sub s = some 0 := by
  cases s with
  | nil =>
    have hs : sub = [] := List.prefix_nil.mp (isPrefixOf_true_iff.mp h)
    simp [findSub, hs]
  | cons c rest => simp [findSub, h]

lemma findSub_none_of_head_not_mem {c : Char} {w s : PyStr} (h : c ∉ s) :
    findSub (c :: w) s = none := by
  induction s with
  | nil => simp [findSub]
  | cons d rest ih =>
    have hcd : (c == d) = false := by
      simp only [beq_eq_false_iff_ne, ne_eq]
      intro hc; exact h (hc ▸ List.mem_cons_self d rest)
    have hp : (c :: w).isPrefixOf (d :: rest) = false := by
      simp [List.isPrefixOf_cons₂, hcd]
    simp [findSub, hp, ih (fun hm => h (List.mem_cons_of_mem d hm))]

lemma findSub_append_of_head_not_mem {c : Char} {w : PyStr} {u s : PyStr}
    (h : ∀ d ∈ u, d ≠ c) :
    findSub (c :: w) (u ++ s) = (findSub (c :: w) s).map (· + u.length) := by
  induction u with
  | nil =>
    cases hf : findSub (c :: w) s <;> simp [hf]
  | cons d u ih =>
    have hdc : (c == d) = false := by
      simp only [beq_eq_false_iff_ne, ne_eq]
      intro hc
      exact (h d (List.mem_cons_self d u)) hc.symm
    have hp : (c :: w).isPrefixOf (d :: (u ++ s)) = false := by
      simp [List.isPrefixOf_cons₂, hdc]
    have ih' := ih (fun e he => h e (List.mem_cons_of_mem d he))
    rw [List.cons_append]
    simp only [findSub, hp, Bool.false_eq_true, if_false, ih']
    cases hf : findSub (c :: w) s <;> simp [hf, List.length_cons] <;> omega

lemma not_occurs_take_findSub {sub : PyStr} (hsub : sub ≠ []) :
    ∀ {s : PyStr} {i : Nat}, findSub sub s = some i → ¬ Occurs sub (s.take i) := by
  intro s
  induction s with
  | nil =>
    intro i h
    simp [findSub, List.isEmpty_iff, hsub] at h
  | cons c rest ih =>
    intro i h
    by_cases hp : sub.isPrefixOf (c :: rest)
    · simp [findSub, hp] at h
      subst h
      simp [occurs_nil, hsub]
    · simp only [findSub, hp, Bool.false_eq_true, if_false] at h
      cases hf : findSub sub rest with
      | none => rw [hf] at h; simp at h
      | some j =>
        rw [hf] at h
        simp at h
        have hi : i = j + 1 := by omega
        subst hi
        rw [List.take_succ_cons]
        intro hocc
        rcases occurs_cons_iff.mp hocc with hpre | htail
        · have : rest.take j <+: rest := take_pref j rest
          have : (c :: rest.take j) <+: (c :: rest) :=
            List.cons_prefix_cons.mpr ⟨rfl, this⟩
          exact hp (isPrefixOf_true_iff.mpr (hpre.trans this))
        · exact ih hf htail

lemma splitPart0_no_occurs {sub : PyStr} (hsub : sub ≠ []) (s : PyStr) :
    ¬ Occurs sub (splitPart0 sub s) := by
  unfold splitPart0
  cases hf : findSub sub s with
  | none =>
    intro hocc
    have := containsSub_true_iff.mpr hocc
    simp [containsSub, hf] at this
  | some i => exact not_occurs_take_findSub hsub hf

lemma splitPart1_no_occurs {sub : PyStr} (hsub : sub ≠ []) (s : PyStr) :
    ¬ Occurs sub (splitPart1 sub s) := by
  unfold splitPart1
  cases hf : findSub sub s with
  | none => simp [occurs_nil, hsub]
  | some i => exact splitPart0_no_occurs hsub _

/-! ### Line splitting and joining -/

lemma splitLines_ne_nil (s : PyStr) : splitLines s ≠ [] := by
  cases s with
  | nil => simp [splitLines]
  | cons c rest =>
    by_cases h : c = '\n'
    · simp [splitLines, h]
    · cases hr : splitLines rest <;> simp [splitLines, h, hr]

lemma mem_splitLines_no_newline {s l : PyStr} (h : l ∈ splitLines s) : '\n' ∉ l := by
  induction s generalizing l with
  | nil =>
    simp [splitLines] at h
    simp [h]
  | cons c rest ih =>
    by_cases hc : c = '\n'
    · rw [splitLines, if_pos hc] at h
      rcases List.mem_cons.mp h with rfl | hm
      · simp
      · exact ih hm
    · rw [splitLines, if_neg hc] at h
      cases hr : splitLines rest with
      | nil => exact absurd hr (splitLines_ne_nil rest)
      | cons l0 ls =>
        rw [hr] at h
        rcases List.mem_cons.mp h with rfl | hm
        · intro hmem
          rcases List.mem_cons.mp hmem with rfl | hml
          · exact hc rfl
          · exact ih (hr ▸ List.mem_cons_self l0 ls) hml
        · exact ih (hr ▸ List.mem_cons_of_mem l0 hm)

lemma splitLines_head_pref {s l0 : PyStr} {ls : List PyStr}
    (h : splitLines s = l0 :: ls) : l0 <+: s := by
  induction s generalizing l0 ls with
  | nil =>
    simp [splitLines] at h
    rw [h.1]
  | cons c rest ih =>
    by_cases hc : c = '\n'
    · rw [splitLines, if_pos hc] at h
      cases h
      exact nil_pref _
    · rw [splitLines, if_neg hc] at h
      cases hr : splitLines rest with
      | nil => exact absurd hr (splitLines_ne_nil rest)
      | cons m0 ms =>
        rw [hr] at h
        cases h
        exact List.cons_prefix_cons.mpr ⟨rfl, ih hr⟩

lemma mem_splitLines_within {s l : PyStr} (h : l ∈ splitLines s) : l <:+: s := by
  induction s generalizing l with
  | nil =>
    simp [splitLines] at h
    simp [h]
  | cons c rest ih =>
    by_cases hc : c = '\n'
    · rw [splitLines, if_pos hc] at h
      rcases List.mem_cons.mp h with rfl | hm
      · exact ⟨[], c :: rest, rfl⟩
      · exact List.infix_cons (ih hm)
    · rw [splitLines, if_neg hc] at h
      cases hr : splitLines rest with
      | nil => exact absurd hr (splitLines_ne_nil rest)
      | cons l0 ls =>
        rw [hr] at h
        rcases List.mem_cons.mp h with rfl | hm
        · have : l0 <+: rest := splitLines_head_pref hr
          exact (List.cons_prefix_cons.mpr ⟨rfl, this⟩).isInfix
        · exact List.infix_cons (ih (hr ▸ List.mem_cons_of_mem l0 hm))

lemma splitLines_no_newline {l : PyStr} (h : '\n' ∉ l) : splitLines l = [l] := by
  induction l with
  | nil => rfl
  | cons c rest ih =>
    have hc : ¬ c = '\n' := fun hcc => h (hcc ▸ List.mem_cons_self c rest)
    have hr : splitLines rest = [rest] := ih (fun hm => h (List.mem_cons_of_mem c hm))
    rw [splitLines, if_neg hc, hr]

lemma splitLines_append_newline {l : PyStr} (h : '\n' ∉ l) (t : PyStr) :
    splitLines (l ++ '\n' :: t) = l :: splitLines t := by
  induction l with
  | nil => simp [splitLines]
  | cons c rest ih =>
    have hc : ¬ c = '\n' := fun hcc => h (hcc ▸ List.mem_cons_self c rest)
    have ih' := ih (fun hm => h (List.mem_cons_of_mem c hm))
    rw [List.cons_append, splitLines, if_neg hc, ih']

lemma joinLines_cons_cons (a b : PyStr) (ls : List PyStr) :
    joinLines (a :: b :: ls) = a ++ '\n' :: joinLines (b :: ls) := rfl

lemma splitLines_joinLines {ls : List PyStr}
    (h : ∀ l ∈ ls, '\n' ∉ l) (hne : ls ≠ []) :
    splitLines (joinLines ls) = ls := by
  induction ls with
  | nil => exact absurd rfl hne
  | cons l ls ih =>
    cases ls with
    | nil =>
      rw [show joinLines [l] = l from rfl]
      exact splitLines_no_newline (h l (List.mem_cons_self l []))
    | cons l' ls' =>
      rw [joinLines_cons_cons,
        splitLines_append_newline (h l (List.mem_cons_self l _)) _,
        ih (fun m hm => h m (List.mem_cons_of_mem l hm)) (by simp)]

lemma joinLines_ne_nil {l : PyStr} (h : l ≠ []) (ls : List PyStr) :
    joinLines (l :: ls) ≠ [] := by
  cases ls with
  | nil => exact h
  | cons l' ls' =>
    rw [joinLines_cons_cons]
    simp

lemma lstrip_joinLines {ls : List PyStr}
    (h : ∀ l ∈ ls, lstrip l = l ∧ l ≠ []) :
    lstrip (joinLines ls) = joinLines ls := by
  cases ls with
  | nil => rfl
  | cons l ls =>
    obtain ⟨hl, hne⟩ := h l (List.mem_cons_self l ls)
    obtain ⟨c, u, hl0⟩ := List.exists_cons_of_ne_nil hne
    have hl' : lstrip (c :: u) = c :: u := by rw [← hl0]; exact hl
    have hc : isPySpace c = false := lstripped_head_not_space hl'
    cases ls with
    | nil => exact hl
    | cons l' ls' =>
      rw [joinLines_cons_cons, hl0, List.cons_append]
      exact lstrip_cons_of_not hc _

lemma rstrip_joinLines {ls : List PyStr}
    (h : ∀ l ∈ ls, rstrip l = l ∧ l ≠ []) :
    rstrip (joinLines ls) = joinLines ls := by
  induction ls with
  | nil => rfl
  | cons l ls ih =>
    cases ls with
    | nil => exact (h l (List.mem_cons_self l [])).1
    | cons l' ls' =>
      have ihJ : rstrip (joinLines (l' :: ls')) = joinLines (l' :: ls') :=
        ih (fun m hm => h m (List.mem_cons_of_mem l hm))
      have hJne : joinLines (l' :: ls') ≠ [] :=
        joinLines_ne_nil (h l' (by simp)).2 ls'
      rcases List.eq_nil_or_concat (joinLines (l' :: ls')) with hnil | ⟨w, c, hwc⟩
      · exact absurd hnil hJne
      · rw [List.concat_eq_append] at hwc
        have hc : isPySpace c = false := rstrip_eq_concat_not_space (hwc ▸ ihJ)
        rw [joinLines_cons_cons, hwc]
        have hshape : l ++ '\n' :: (w ++ [c]) = (l ++ '\n' :: w) ++ [c] := by
          simp [List.append_assoc]
        rw [hshape, rstrip_concat hc]

lemma strip_joinLines {ls : List PyStr}
    (h : ∀ l ∈ ls, strip l = l ∧ l ≠ []) :
    strip (joinLines ls) = joinLines ls := by
  have h1 : lstrip (joinLines ls) = joinLines ls :=
    lstrip_joinLines (fun l hl => ⟨stripped_lstripped (h l hl).1, (h l hl).2⟩)
  have h2 : rstrip (joinLines ls) = joinLines ls :=
    rstrip_joinLines (fun l hl => ⟨stripped_rstripped (h l hl).1, (h l hl).2⟩)
  rw [strip, h1, h2]

lemma modifyLastLine_ne_nil {f : PyStr → PyStr} {ls : List PyStr} (h : ls ≠ []) :
    modifyLastLine f ls ≠ [] := by
  cases ls with
  | nil => exact absurd rfl h
  | cons a as => cases as <;> simp [modifyLastLine]

lemma joinLines_modifyLastLine_append (t : PyStr) :
    ∀ {ls : List PyStr}, ls ≠ [] →
      joinLines (modifyLastLine (fun l => l ++ t) ls) = joinLines ls ++ t := by
  intro ls
  induction ls with
  | nil => intro h; exact absurd rfl h
  | cons l ls ih =>
    intro _
    cases ls with
    | nil => rfl
    | cons l' ls' =>
      rw [show modifyLastLine (fun l => l ++ t) (l :: l' :: ls')
          = l :: modifyLastLine (fun l => l ++ t) (l' :: ls') from rfl]
      cases hm : modifyLastLine (fun l => l ++ t) (l' :: ls') with
      | nil => exact absurd hm (modifyLastLine_ne_nil (by simp))
      | cons m ms =>
        rw [joinLines_cons_cons, ← hm, ih (by simp), joinLines_cons_cons]
        simp [List.append_assoc]

lemma mem_modifyLastLine {f : PyStr → PyStr} :
    ∀ {ls : List PyStr} {l : PyStr}, l ∈ modifyLastLine f ls →
      l ∈ ls ∨ ∃ l0, l0 ∈ ls ∧ l = f l0 := by
  intro ls
  induction ls with
  | nil => intro l h; simp [modifyLastLine] at h
  | cons a as ih =>
    intro l h
    cases as with
    | nil =>
      simp [modifyLastLine] at h
      exact Or.inr ⟨a, by simp, h⟩
    | cons b bs =>
      rw [show modifyLastLine f (a :: b :: bs) = a :: modifyLastLine f (b :: bs) from rfl] at h
      rcases List.mem_cons.mp h with rfl | hm
      · exact Or.inl (List.mem_cons_self _ _)
      · rcases ih hm with hin | ⟨l0, hl0, hfl⟩
        · exact Or.inl (List.mem_cons_of_mem a hin)
        · exact Or.inr ⟨l0, List.mem_cons_of_mem a hl0, hfl⟩

/-! ### Occurrences across appended material -/

lemma pref_length_le_of_not_mem {sub u v : PyStr} {c : Char}
    (h : sub <+: (u ++ c :: v)) (hc : c ∉ sub) : sub.length ≤ u.length := by
  by_contra hlt
  push_neg at hlt
  have hs : sub = List.take sub.length (u ++ c :: v) := List.prefix_iff_eq_take.mp h
  rw [List.take_append_eq_append_take] at hs
  have htk : List.take sub.length u = u := List.take_of_length_le (by omega)
  have hpos : 0 < sub.length - u.length := by omega
  apply hc
  rw [hs, htk]
  refine List.mem_append_right u ?_
  cases hk : sub.length - u.length with
  | zero => omega
  | succ k => simp [hk, List.take_succ_cons]

lemma pref_of_append_of_length_le {sub u w : PyStr}
    (h : sub <+: (u ++ w)) (hle : sub.length ≤ u.length) : sub <+: u := by
  have hs : sub = List.take sub.length (u ++ w) := List.prefix_iff_eq_take.mp h
  rw [List.take_append_eq_append_take, Nat.sub_eq_zero_of_le hle] at hs
  simp at hs
  rw [hs]
  exact take_pref _ _

lemma occurs_append_cons {sub : PyStr} {c : Char} (hsub : sub ≠ []) (hc : c ∉ sub)
    {v : PyStr} : ∀ {u : PyStr}, Occurs sub (u ++ c :: v) → Occurs sub u ∨ Occurs sub v := by
  intro u
  induction u with
  | nil =>
    intro h
    rw [List.nil_append] at h
    rcases occurs_cons_iff.mp h with hpre | htail
    · obtain ⟨d, w, hd⟩ := List.exists_cons_of_ne_nil hsub
      rw [hd] at hpre
      have : d = c := (List.cons_prefix_cons.mp hpre).1
      exact absurd (hd ▸ (this ▸ List.mem_cons_self d w)) hc
    · exact Or.inr htail
  | cons d u ih =>
    intro h
    rw [List.cons_append] at h
    rcases occurs_cons_iff.mp h with hpre | htail
    · have hpre' : sub <+: ((d :: u) ++ c :: v) := by simpa using hpre
      have hlen : sub.length ≤ (d :: u).length := pref_length_le_of_not_mem hpre' hc
      exact Or.inl (occurs_of_pref (pref_of_append_of_length_le hpre' hlen))
    · rcases ih htail with hu | hv
      · exact Or.inl (occurs_cons_of_occurs hu)
      · exact Or.inr hv

lemma occurs_joinLines {sub : PyStr} (hsub : sub ≠ []) (hnl : '\n' ∉ sub) :
    ∀ {ls : List PyStr}, Occurs sub (joinLines ls) → ∃ l ∈ ls, Occurs sub l := by
  intro ls
  induction ls with
  | nil =>
    intro h
    exact absurd (occurs_nil.mp h) hsub
  | cons l ls ih =>
    intro h
    cases ls with
    | nil => exact ⟨l, by simp, h⟩
    | cons l' ls' =>
      rw [joinLines_cons_cons] at h
      rcases occurs_append_cons hsub hnl h with hl | hJ
      · exact ⟨l, by simp, hl⟩
      · obtain ⟨m, hm, hocc⟩ := ih hJ
        exact ⟨m, List.mem_cons_of_mem l hm, hocc⟩

/-! ### Fence-freeness of the cleaning pipeline -/

lemma occurs_fence_of_occurs_fencesql {y : PyStr}
    (h : Occurs (pystr ("```sql")) y) : Occurs (pystr ("```")) y := by
  obtain ⟨l, r, hlr⟩ := h
  refine ⟨l, pystr ("sql") ++ r, ?_⟩
  rw [hlr]
  simp [pystr]

lemma cleanExtract_no_fence (s : PyStr) : ¬ Occurs (pystr ("```")) (cleanExtract s) := by
  have hne : pystr ("```") ≠ [] := by decide
  unfold cleanExtract
  by_cases h1 : containsSub (pystr ("```sql")) s
  · rw [if_pos h1]
    intro hocc
    exact splitPart0_no_occurs hne _ (occurs_of_strip hocc)
  · rw [if_neg h1]
    by_cases h2 : containsSub (pystr ("```")) s
    · rw [if_pos h2]
      intro hocc
      exact splitPart1_no_occurs hne _ (occurs_of_strip hocc)
    · rw [if_neg h2]
      exact containsSub_false_iff.mp (Bool.not_eq_true _ ▸ by simpa using h2)

/-! ### Semicolon facts -/

lemma endsWithChar_concat (c : Char) (u : PyStr) : endsWithChar c (u ++ [c]) = true := by
  simp [endsWithChar, List.getLast?_concat]

lemma endsWithChar_ne_nil {c : Char} {s : PyStr} (h : endsWithChar c s = true) : s ≠ [] := by
  intro hn
  rw [hn] at h
  simp [endsWithChar] at h

lemma endsWithChar_iff_concat {c : Char} {s : PyStr} :
    endsWithChar c s = true ↔ ∃ w, s = w ++ [c] := by
  constructor
  · intro h
    cases hg : s.getLast? with
    | none => rw [endsWithChar, hg] at h; simp at h
    | some d =>
      rw [endsWithChar, hg] at h
      have hd : d = c := by simpa using h
      obtain ⟨w, hw⟩ := List.getLast?_eq_some_iff.mp hg
      exact ⟨w, hd ▸ hw⟩
  · rintro ⟨w, rfl⟩
    exact endsWithChar_concat c w

lemma ensureSemicolon_ne_nil (s : PyStr) : ensureSemicolon s ≠ [] := by
  unfold ensureSemicolon
  by_cases h : endsWithChar ';' (rstrip s)
  · rw [if_pos h]
    intro hn
    have := endsWithChar_ne_nil h
    rw [hn] at this
    exact this rstrip_nil
  · rw [if_neg h]
    simp [pystr]

lemma ensureSemicolon_ends (s : PyStr) :
    endsWithChar ';' (rstrip (ensureSemicolon s)) = true := by
  unfold ensureSemicolon
  by_cases h : endsWithChar ';' (rstrip s)
  · rw [if_pos h]
    exact h
  · rw [if_neg h]
    have hsemi : isPySpace ';' = false := by decide
    rw [show rstrip s ++ pystr (";") = rstrip s ++ [';'] from rfl,
      rstrip_concat hsemi]
    exact endsWithChar_concat ';' (rstrip s)

lemma clean_sql_response_ne_nil (r : PyStr) : clean_sql_response r ≠ [] :=
  ensureSemicolon_ne_nil _

lemma clean_sql_response_ends (r : PyStr) :
    endsWithChar ';' (rstrip (clean_sql_response r)) = true :=
  ensureSemicolon_ends _

lemma ends_semi_concat (u : PyStr) :
    (u ++ [';']) ≠ [] ∧ endsWithChar ';' (rstrip (u ++ [';'])) = true := by
  have hsemi : isPySpace ';' = false := by decide
  refine ⟨by simp, ?_⟩
  rw [rstrip_concat hsemi]
  exact endsWithChar_concat ';' u

/-! ### The cleaned output in normal form -/

lemma clean_sql_response_eq_lines (x : PyStr) :
    clean_sql_response x = ensureSemicolon (joinLines (cleanLines x)) := rfl

lemma keepLine_ne_nil {l : PyStr} (h : keepLine l = true) : l ≠ [] := by
  intro hn
  rw [hn] at h
  simp [keepLine] at h

lemma cleanLines_facts {x : PyStr} {l : PyStr} (h : l ∈ cleanLines x) :
    strip l = l ∧ keepLine l = true ∧ '\n' ∉ l ∧ ¬ Occurs (pystr ("```")) l := by
  have hkeep : keepLine l = true := List.of_mem_filter h
  have hmap : l ∈ (splitLines (cleanExtract (strip x))).map strip :=
    List.mem_of_mem_filter h
  obtain ⟨l0, hl0, hstrip⟩ := List.mem_map.mp hmap
  refine ⟨?_, hkeep, ?_, ?_⟩
  · rw [← hstrip]; exact strip_idem l0
  · intro hnl
    have hsub : l.Sublist l0 := hstrip ▸ strip_sublist l0
    exact mem_splitLines_no_newline hl0 (hsub.subset hnl)
  · intro hocc
    have h1 : Occurs (pystr ("```")) l0 := occurs_of_strip (hstrip ▸ hocc)
    have h2 : Occurs (pystr ("```")) (cleanExtract (strip x)) :=
      occurs_of_within (mem_splitLines_within hl0) h1
    exact cleanExtract_no_fence (strip x) h2

lemma no_fence_of_lines {ls : List PyStr}
    (h : ∀ l ∈ ls, ¬ Occurs (pystr ("```")) l) :
    ¬ Occurs (pystr ("```")) (joinLines ls) := by
  intro hocc
  obtain ⟨l, hl, hocc'⟩ := occurs_joinLines (by decide) (by decide) hocc
  exact h l hl hocc'

lemma clean_fixed {ls : List PyStr}
    (h : ∀ l ∈ ls, strip l = l ∧ keepLine l = true ∧ '\n' ∉ l ∧
      ¬ Occurs (pystr ("```")) l)
    (hne : ls ≠ [])
    (hsemi : endsWithChar ';' (joinLines ls) = true) :
    clean_sql_response (joinLines ls) = joinLines ls := by
  have hpairs : ∀ l ∈ ls, strip l = l ∧ l ≠ [] :=
    fun l hl => ⟨(h l hl).1, keepLine_ne_nil (h l hl).2.1⟩
  have hstripJ : strip (joinLines ls) = joinLines ls := strip_joinLines hpairs
  have hrstripJ : rstrip (joinLines ls) = joinLines ls :=
    rstrip_joinLines (fun l hl => ⟨stripped_rstripped (hpairs l hl).1, (hpairs l hl).2⟩)
  have hnofence : ¬ Occurs (pystr ("```")) (joinLines ls) :=
    no_fence_of_lines (fun l hl => (h l hl).2.2.2)
  have hnofsql : ¬ Occurs (pystr ("```sql")) (joinLines ls) :=
    fun hocc => hnofence (occurs_fence_of_occurs_fencesql hocc)
  have hext : cleanExtract (joinLines ls) = joinLines ls := by
    unfold cleanExtract
    rw [if_neg (by rw [containsSub_true_iff]; exact hnofsql),
      if_neg (by rw [containsSub_true_iff]; exact hnofence)]
  have hlines : filterCommentLines (joinLines ls) = joinLines ls := by
    unfold filterCommentLines
    rw [splitLines_joinLines (fun l hl => (h l hl).2.2.1) hne]
    have hmap : ls.map strip = ls := by
      calc ls.map strip = ls.map id := List.map_congr_left (fun l hl => (h l hl).1)
        _ = ls := List.map_id ls
    rw [hmap, List.filter_eq_self.mpr (fun l hl => (h l hl).2.1)]
  have hens : ensureSemicolon (joinLines ls) = joinLines ls := by
    unfold ensureSemicolon
    rw [hrstripJ, if_pos hsemi]
  rw [clean_sql_response, hstripJ, hext, hlines, hens]

lemma stripped_append_semi {l : PyStr} (hstrip : strip l = l) (hne : l ≠ []) :
    strip (l ++ [';']) = l ++ [';'] := by
  obtain ⟨c, u, hcu⟩ := List.exists_cons_of_ne_nil hne
  have hl : lstrip l = l := stripped_lstripped hstrip
  have hc : isPySpace c = false := lstripped_head_not_space (by rw [← hcu]; exact hl)
  have hls : lstrip (l ++ [';']) = l ++ [';'] := by
    rw [hcu, List.cons_append]
    exact lstrip_cons_of_not hc _
  have hrs : rstrip (l ++ [';']) = l ++ [';'] := rstrip_concat (by decide) l
  rw [strip, hls, hrs]

lemma keepLine_append_semi {l : PyStr} (h : keepLine l = true) :
    keepLine (l ++ [';']) = true := by
  have hne : l ≠ [] := keepLine_ne_nil h
  have hne' : (l ++ [';']).isEmpty = false := by simp
  by_cases hsp : (pystr ("-- ")).isPrefixOf l
  · have : (pystr ("-- ")).isPrefixOf (l ++ [';']) = true :=
      isPrefixOf_true_iff.mpr ((isPrefixOf_true_iff.mp hsp).trans (List.prefix_append l [';']))
    simp [keepLine, hne', this]
  · have hcomment : (pystr ("--")).isPrefixOf l = false := by
      by_contra hcc
      have hcc' : (pystr ("--")).isPrefixOf l = true := by
        cases hv : (pystr ("--")).isPrefixOf l
        · exact absurd hv hcc
        · rfl
      rw [keepLine] at h
      have hspf : (pystr ("-- ")).isPrefixOf l = false := by
        cases hv : (pystr ("-- ")).isPrefixOf l
        · rfl
        · exact absurd hv hsp
      rw [hcc', hspf] at h
      simp at h
    have hnp : (pystr ("--")).isPrefixOf (l ++ [';']) = false := by
      cases hv : (pystr ("--")).isPrefixOf (l ++ [';'])
      · rfl
      · exfalso
        have hpre : pystr ("--") <+: (l ++ [';']) := isPrefixOf_true_iff.mp hv
        have hnotin : ';' ∉ pystr ("--") := by decide
        have hlen : (pystr ("--")).length ≤ l.length :=
          pref_length_le_of_not_mem (by simpa using hpre) hnotin
        have : pystr ("--") <+: l := pref_of_append_of_length_le hpre hlen
        rw [isPrefixOf_true_iff.mpr this] at hcomment
        simp at hcomment
    simp [keepLine, hne', hnp]

/-- The cleaning function is idempotent on every input. -/
lemma clean_sql_response_idem (x : PyStr) :
    clean_sql_response (clean_sql_response x) = clean_sql_response x := by
  rw [clean_sql_response_eq_lines x]
  cases hls : cleanLines x with
  | nil =>
    have h1 : ensureSemicolon (joinLines []) = [';'] := by decide
    rw [h1]
    decide
  | cons l0 ls0 =>
    have hlsne : cleanLines x ≠ [] := by rw [hls]; simp
    have hfacts : ∀ l ∈ cleanLines x, strip l = l ∧ keepLine l = true ∧ '\n' ∉ l ∧
        ¬ Occurs (pystr ("```")) l := fun l hl => cleanLines_facts hl
    rw [← hls]
    have hpairs : ∀ l ∈ cleanLines x, rstrip l = l ∧ l ≠ [] := fun l hl =>
      ⟨stripped_rstripped (hfacts l hl).1, keepLine_ne_nil (hfacts l hl).2.1⟩
    have hrstripJ : rstrip (joinLines (cleanLines x)) = joinLines (cleanLines x) :=
      rstrip_joinLines hpairs
    unfold ensureSemicolon
    by_cases hsemi : endsWithChar ';' (rstrip (joinLines (cleanLines x)))
    · rw [if_pos hsemi]
      rw [hrstripJ] at hsemi
      exact clean_fixed hfacts hlsne hsemi
    · rw [if_neg hsemi, hrstripJ,
        show joinLines (cleanLines x) ++ pystr (";")
          = joinLines (cleanLines x) ++ [';'] from rfl,
        ← joinLines_modifyLastLine_append [';'] hlsne]
      set ls2 := modifyLastLine (fun l => l ++ [';']) (cleanLines x) with hls2
      have hls2ne : ls2 ≠ [] := modifyLastLine_ne_nil hlsne
      have hfacts2 : ∀ l ∈ ls2, strip l = l ∧ keepLine l = true ∧ '\n' ∉ l ∧
          ¬ Occurs (pystr ("```")) l := by
        intro l hl
        rcases mem_modifyLastLine hl with hin | ⟨m, hm, hml⟩
        · exact hfacts l hin
        · obtain ⟨hms, hmk, hmn, hmo⟩ := hfacts m hm
          have hmne : m ≠ [] := keepLine_ne_nil hmk
          subst hml
          refine ⟨stripped_append_semi hms hmne, keepLine_append_semi hmk, ?_, ?_⟩
          · intro hmem
            rcases List.mem_append.mp hmem with hml | hsemi'
            · exact hmn hml
            · simp at hsemi'
          · intro hocc
            rcases occurs_append_cons (by decide) (by decide) (v := []) hocc with h1 | h1
            · exact hmo h1
            · exact (by decide : pystr ("```") ≠ []) (occurs_nil.mp h1)
      have hsemi2 : endsWithChar ';' (joinLines ls2) = true := by
        rw [hls2, joinLines_modifyLastLine_append [';'] hlsne]
        exact endsWithChar_concat ';' _
      exact clean_fixed hfacts2 hls2ne hsemi2

/-! ### Extraction from a well-formed markdown fence -/

lemma not_mem_of_containsSub_single_false {c : Char} {s : PyStr}
    (h : containsSub [c] s = false) : c ∉ s := fun hm =>
  containsSub_false_iff.mp h (occurs_singleton.mpr hm)

lemma findSub_fsql_after_ft {w : PyStr} (h : '\x60' ∉ w) :
    findSub (pystr ("```sql")) (pystr ("```") ++ w)
      = if (pystr ("sql")).isPrefixOf w then some 0 else none := by
  by_cases hp : (pystr ("sql")).isPrefixOf w
  · rw [if_pos hp]
    refine findSub_of_isPrefixOf (isPrefixOf_true_iff.mpr ?_)
    rw [show pystr ("```sql") = pystr ("```") ++ pystr ("sql") from rfl]
    exact (List.prefix_append_right_inj (pystr ("```"))).mpr (isPrefixOf_true_iff.mp hp)
  · rw [if_neg hp]
    have e1 : (pystr ("```sql")).isPrefixOf ('\x60' :: '\x60' :: '\x60' :: w) = false := by
      cases hv : (pystr ("```sql")).isPrefixOf ('\x60' :: '\x60' :: '\x60' :: w)
      · rfl
      · exfalso
        have hpre := isPrefixOf_true_iff.mp hv
        rw [show pystr ("```sql") = pystr ("```") ++ pystr ("sql") from rfl,
          show ('\x60' :: '\x60' :: '\x60' :: w : PyStr) = pystr ("```") ++ w from rfl] at hpre
        exact hp (isPrefixOf_true_iff.mpr
          ((List.prefix_append_right_inj (pystr ("```"))).mp hpre))
    have e2 : (pystr ("```sql")).isPrefixOf ('\x60' :: '\x60' :: w) = false := by
      cases hv : (pystr ("```sql")).isPrefixOf ('\x60' :: '\x60' :: w)
      · rfl
      · exfalso
        have hpre := isPrefixOf_true_iff.mp hv
        rw [show pystr ("```sql") = '\x60' :: '\x60' :: ('\x60' :: pystr ("sql")) from rfl] at hpre
        have h1 := (List.cons_prefix_cons.mp hpre).2
        have h2 := (List.cons_prefix_cons.mp h1).2
        obtain ⟨t, ht⟩ := h2
        exact h (by rw [← ht]; simp)
    have e3 : (pystr ("```sql")).isPrefixOf ('\x60' :: w) = false := by
      cases hv : (pystr ("```sql")).isPrefixOf ('\x60' :: w)
      · rfl
      · exfalso
        have hpre := isPrefixOf_true_iff.mp hv
        rw [show pystr ("```sql") = '\x60' :: ('\x60' :: '\x60' :: pystr ("sql")) from rfl] at hpre
        have h1 := (List.cons_prefix_cons.mp hpre).2
        obtain ⟨t, ht⟩ := h1
        exact h (by rw [← ht]; simp)
    have e4 : findSub (pystr ("```sql")) w = none := by
      rw [show pystr ("```sql") = '\x60' :: pystr ("``sql") from rfl]
      exact findSub_none_of_head_not_mem h
    rw [show pystr ("```") ++ w = '\x60' :: '\x60' :: '\x60' :: w from rfl]
    rw [findSub, if_neg (by rw [e1]; simp)]
    rw [findSub, if_neg (by rw [e2]; simp)]
    rw [findSub, if_neg (by rw [e3]; simp)]
    rw [e4]
    rfl

lemma strip_fenced {pre body post : PyStr}
    (hpre : '\x60' ∉ pre) :
    strip (pre ++ (pystr ("```sql") ++ (body ++ (pystr ("```") ++ post))))
      = lstrip pre ++ (pystr ("```sql") ++ (body ++ (pystr ("```") ++ rstrip post))) := by
  have hbt : isPySpace '\x60' = false := by decide
  have h1 : lstrip (pre ++ (pystr ("```sql") ++ (body ++ (pystr ("```") ++ post))))
      = lstrip pre ++ (pystr ("```sql") ++ (body ++ (pystr ("```") ++ post))) := by
    rw [show pystr ("```sql") ++ (body ++ (pystr ("```") ++ post))
        = '\x60' :: (pystr ("``sql") ++ (body ++ (pystr ("```") ++ post))) from rfl]
    rw [lstrip_append_cons hbt]
  rw [strip, h1]
  have h2 : lstrip pre ++ (pystr ("```sql") ++ (body ++ (pystr ("```") ++ post)))
      = ((lstrip pre ++ pystr ("```sql") ++ body ++ pystr ("``")) ++ ['\x60']) ++ post := by
    rw [show pystr ("```") = pystr ("``") ++ ['\x60'] from rfl]
    simp [List.append_assoc]
  have h3 : lstrip pre ++ (pystr ("```sql") ++ (body ++ (pystr ("```") ++ rstrip post)))
      = ((lstrip pre ++ pystr ("```sql") ++ body ++ pystr ("``")) ++ ['\x60']) ++ rstrip post := by
    rw [show pystr ("```") = pystr ("``") ++ ['\x60'] from rfl]
    simp [List.append_assoc]
  rw [h2, rstrip_append_last hbt, ← h3]

lemma splitPart0_eq_some {sep s : PyStr} {i : Nat} (h : findSub sep s = some i) :
    splitPart0 sep s = s.take i := by
  rw [splitPart0, h]

lemma splitPart0_eq_none {sep s : PyStr} (h : findSub sep s = none) :
    splitPart0 sep s = s := by
  rw [splitPart0, h]

lemma splitPart1_eq {sep s : PyStr} {i : Nat} (h : findSub sep s = some i) :
    splitPart1 sep s = splitPart0 sep (s.drop (i + sep.length)) := by
  rw [splitPart1, h]

lemma cleanExtract_fenced {pre body post : PyStr}
    (hpre : '\x60' ∉ pre) (hbody : '\x60' ∉ body) (hpost : '\x60' ∉ post) :
    cleanExtract (strip (pre ++ (pystr ("```sql") ++ (body ++ (pystr ("```") ++ post)))))
      = strip body := by
  have hpre' : ∀ d ∈ lstrip pre, d ≠ '\x60' := by
    intro d hd he
    exact hpre ((lstrip_sublist pre).subset (he ▸ hd))
  have hpost' : '\x60' ∉ rstrip post := fun hm => hpost ((rstrip_sublist post).subset hm)
  have hbody' : ∀ d ∈ body, d ≠ '\x60' := fun d hd he => hbody (he ▸ hd)
  rw [strip_fenced hpre]
  set REST := body ++ (pystr ("```") ++ rstrip post) with hREST
  -- the position of the first fence opener
  have hfind : findSub (pystr ("```sql"))
      (lstrip pre ++ (pystr ("```sql") ++ REST)) = some (lstrip pre).length := by
    rw [show pystr ("```sql") = '\x60' :: pystr ("``sql") from rfl]
    rw [findSub_append_of_head_not_mem hpre']
    rw [show ('\x60' :: pystr ("``sql") : PyStr) = pystr ("```sql") from rfl]
    rw [findSub_of_isPrefixOf
      (isPrefixOf_true_iff.mpr (List.prefix_append (pystr ("```sql")) REST))]
    simp
  have hocc : containsSub (pystr ("```sql"))
      (lstrip pre ++ (pystr ("```sql") ++ REST)) = true := by
    simp [containsSub, hfind]
  rw [cleanExtract, if_pos hocc]
  have hdrop : List.drop ((lstrip pre).length + (pystr ("```sql")).length)
      (lstrip pre ++ (pystr ("```sql") ++ REST)) = REST := by
    rw [show lstrip pre ++ (pystr ("```sql") ++ REST)
        = (lstrip pre ++ pystr ("```sql")) ++ REST from by simp [List.append_assoc]]
    rw [show (lstrip pre).length + (pystr ("```sql")).length
        = (lstrip pre ++ pystr ("```sql")).length from by simp]
    exact List.drop_left _ _
  have hpart1 : splitPart1 (pystr ("```sql")) (lstrip pre ++ (pystr ("```sql") ++ REST))
      = splitPart0 (pystr ("```sql")) REST := by
    rw [splitPart1_eq hfind, hdrop]
  rw [hpart1, hREST]
  have hshift : findSub (pystr ("```sql")) (body ++ (pystr ("```") ++ rstrip post))
      = (findSub (pystr ("```sql")) (pystr ("```") ++ rstrip post)).map
          (· + body.length) := by
    rw [show pystr ("```sql") = '\x60' :: pystr ("``sql") from rfl,
      findSub_append_of_head_not_mem hbody']
  by_cases hsql : (pystr ("sql")).isPrefixOf (rstrip post)
  · -- a spurious second fence opener right after the closing fence
    have hf : findSub (pystr ("```sql")) (body ++ (pystr ("```") ++ rstrip post))
        = some body.length := by
      rw [hshift, findSub_fsql_after_ft hpost', if_pos hsql]
      simp
    have hp0 : splitPart0 (pystr ("```sql")) (body ++ (pystr ("```") ++ rstrip post))
        = body := by
      rw [splitPart0_eq_some hf]
      exact List.take_left body _
    have hnone : findSub (pystr ("```")) body = none := by
      rw [show pystr ("```") = '\x60' :: pystr ("``") from rfl]
      exact findSub_none_of_head_not_mem hbody
    rw [hp0, splitPart0_eq_none hnone]
  · have hf : findSub (pystr ("```sql")) (body ++ (pystr ("```") ++ rstrip post))
        = none := by
      rw [hshift, findSub_fsql_after_ft hpost', if_neg hsql]
      rfl
    have hp0 : splitPart0 (pystr ("```sql")) (body ++ (pystr ("```") ++ rstrip post))
        = body ++ (pystr ("```") ++ rstrip post) := by
      rw [splitPart0_eq_none hf]
    have hf2 : findSub (pystr ("```")) (body ++ (pystr ("```") ++ rstrip post))
        = some body.length := by
      rw [show pystr ("```") = '\x60' :: pystr ("``") from rfl,
        findSub_append_of_head_not_mem hbody',
        show ('\x60' :: pystr ("``") : PyStr) = pystr ("```") from rfl,
        findSub_of_isPrefixOf
          (isPrefixOf_true_iff.mpr (List.prefix_append (pystr ("```")) (rstrip post)))]
      simp
    rw [hp0, splitPart0_eq_some hf2]
    rw [List.take_left body _]

/-! ### Properties of the fallback generator and the orchestrator -/

lemma spec_of_ends_concat {s u : PyStr} (h : s = u ++ [';']) :
    s ≠ [] ∧ endsWithChar ';' (rstrip s) = true := h ▸ ends_semi_concat u

lemma fallback_sql_spec (q : PyStr) :
    fallback_sql q ≠ [] ∧ endsWithChar ';' (rstrip (fallback_sql q)) = true := by
  rw [fallback_sql]
  split_ifs with h1 h2 h3 h4 h5 h6
  · exact spec_of_ends_concat
      (u := pystr ("-- Drop all tables (CASCADE handles dependencies)\n    DROP TABLE IF EXISTS orders CASCADE;\n    DROP TABLE IF EXISTS users CASCADE;\n    DROP TABLE IF EXISTS query_history CASCADE")) (by decide)
  · exact spec_of_ends_concat
      (u := pystr ("-- Example: DROP TABLE table_name CASCADE;\nSELECT \x27Specify which table to drop\x27 as message")) (by decide)
  · exact spec_of_ends_concat
      (u := pystr ("SELECT * FROM users WHERE city = \x27New York\x27 LIMIT 10")) (by decide)
  · exact spec_of_ends_concat
      (u := pystr ("SELECT * FROM orders WHERE amount > 100 ORDER BY amount DESC LIMIT 10")) (by decide)
  · exact spec_of_ends_concat
      (u := pystr ("SELECT COUNT(*) as user_count FROM users")) (by decide)
  · exact spec_of_ends_concat
      (u := pystr ("SELECT u.name, o.product, o.amount FROM users u JOIN orders o ON u.id = o.user_id LIMIT 10")) (by decide)
  · cases hm : searchUnderNum (pyLower q) with
    | some age =>
      refine spec_of_ends_concat
        (u := pystr ("SELECT * FROM users WHERE age < ") ++ age ++ pystr (" LIMIT 10")) ?_
      rw [show pystr (" LIMIT 10;") = pystr (" LIMIT 10") ++ [';'] from rfl]
      simp [List.append_assoc]
    | none =>
      exact spec_of_ends_concat
        (u := pystr ("SELECT * FROM users WHERE age < 25 LIMIT 10")) (by decide)
  · refine spec_of_ends_concat
      (u := pystr ("-- Fallback query for: ") ++ q ++ pystr ("\nSELECT * FROM users LIMIT 10")) ?_
    rw [show pystr ("\nSELECT * FROM users LIMIT 10;")
        = pystr ("\nSELECT * FROM users LIMIT 10") ++ [';'] from rfl]
    simp [List.append_assoc]

lemma generate_sql_attempt_ok {llm : Option (PyStr → Except Exn PyStr)}
    {retrieve : PyStr → Nat → Except Exn (List ContextItem)} {q s : PyStr}
    (h : generate_sql_attempt llm retrieve q = Except.ok s) :
    s = pystr ("-- No API key configured\n-- Generated from: ") ++ q
        ++ pystr ("\nSELECT * FROM users LIMIT 5;")
    ∨ ∃ r, s = clean_sql_response r := by
  cases llm with
  | none =>
    rw [generate_sql_attempt] at h
    exact Or.inl (Except.ok.inj h).symm
  | some invoke =>
    rw [generate_sql_attempt] at h
    split at h
    · exact absurd h (by simp)
    · split at h
      · exact absurd h (by simp)
      · exact Or.inr ⟨_, (Except.ok.inj h).symm⟩

/-- C1: generate_sql never raises: on every input it either returns the
value produced by the try block, or, when any collaborator raised, the
rule-based fallback string for the question. -/
theorem generate_sql_never_raises (llm : Option (PyStr → Except Exn PyStr))
    (retrieve : PyStr → Nat → Except Exn (List ContextItem)) (q : PyStr) :
    (∃ sql, generate_sql_attempt llm retrieve q = Except.ok sql ∧
      generate_sql llm retrieve q = sql) ∨
    (∃ e, generate_sql_attempt llm retrieve q = Except.error e ∧
      generate_sql llm retrieve q = fallback_sql q) := by
  cases h : generate_sql_attempt llm retrieve q with
  | ok s => exact Or.inl ⟨s, rfl, by rw [generate_sql, h]⟩
  | error e => exact Or.inr ⟨e, rfl, by rw [generate_sql, h]⟩

lemma clean_sql_response_no_fence (x : PyStr) :
    ¬ Occurs (pystr ("```")) (clean_sql_response x) := by
  rw [clean_sql_response_eq_lines x]
  have hJ : ¬ Occurs (pystr ("```")) (joinLines (cleanLines x)) :=
    no_fence_of_lines (fun l hl => (cleanLines_facts hl).2.2.2)
  rw [ensureSemicolon]
  by_cases hsemi : endsWithChar ';' (rstrip (joinLines (cleanLines x)))
  · rw [if_pos hsemi]
    exact hJ
  · rw [if_neg hsemi]
    intro hocc
    have hocc' : Occurs (pystr ("```")) (rstrip (joinLines (cleanLines x)) ++ ';' :: []) := by
      simpa using hocc
    rcases occurs_append_cons (by decide) (by decide) hocc' with h1 | h1
    · exact hJ (occurs_of_within (rstrip_pref (joinLines (cleanLines x))).isInfix h1)
    · exact (by decide : pystr ("```") ≠ []) (occurs_nil.mp h1)

/-- C2: on every path of generate_sql (cleaned model output, no-model
placeholder, every fallback branch) the returned SQL string is non-empty
and ends with a semicolon ignoring trailing whitespace; and the cleaning
step never leaves a markdown fence in its output. -/
theorem generate_sql_invariant :
    (∀ (llm : Option (PyStr → Except Exn PyStr))
      (retrieve : PyStr → Nat → Except Exn (List ContextItem)) (q : PyStr),
      generate_sql llm retrieve q ≠ [] ∧
      endsWithChar ';' (rstrip (generate_sql llm retrieve q)) = true) ∧
    (∀ resp, ¬ Occurs (pystr ("```")) (clean_sql_response resp)) := by
  constructor
  · intro llm retrieve q
    cases h : generate_sql_attempt llm retrieve q with
    | ok s =>
      have hgen : generate_sql llm retrieve q = s := by rw [generate_sql, h]
      rw [hgen]
      rcases generate_sql_attempt_ok h with hph | ⟨r, hc⟩
      · refine spec_of_ends_concat
          (u := (pystr ("-- No API key configured\n-- Generated from: ") ++ q)
            ++ pystr ("\nSELECT * FROM users LIMIT 5")) ?_
        rw [hph, show pystr ("\nSELECT * FROM users LIMIT 5;")
            = pystr ("\nSELECT * FROM users LIMIT 5") ++ [';'] from rfl]
        simp [List.append_assoc]
      · rw [hc]
        exact ⟨clean_sql_response_ne_nil r, clean_sql_response_ends r⟩
    | error e =>
      have hgen : generate_sql llm retrieve q = fallback_sql q := by rw [generate_sql, h]
      rw [hgen]
      exact fallback_sql_spec q
  · exact clean_sql_response_no_fence

/-- C4: with no model configured, generate_sql returns the placeholder
statement that echoes the question, for every retrieval collaborator (no
model call can occur: there is no model), and the endpoint reports it
with a success status. -/
theorem no_model_placeholder
    (retrieve : PyStr → Nat → Except Exn (List ContextItem)) (q : PyStr) :
    generate_sql none retrieve q
      = pystr ("-- No API key configured\n-- Generated from: ") ++ q
        ++ pystr ("\nSELECT * FROM users LIMIT 5;") ∧
    generate_sql none retrieve q ≠ [] ∧
    (∃ l r, generate_sql none retrieve q = l ++ q ++ r) ∧
    generate_sql_endpoint none retrieve (Except.ok ()) q
      = ⟨generate_sql none retrieve q, pystr ("success"), none⟩ := by
  have hgen : generate_sql none retrieve q
      = pystr ("-- No API key configured\n-- Generated from: ") ++ q
        ++ pystr ("\nSELECT * FROM users LIMIT 5;") := rfl
  refine ⟨hgen, ?_, ⟨pystr ("-- No API key configured\n-- Generated from: "),
    pystr ("\nSELECT * FROM users LIMIT 5;"), hgen⟩, rfl⟩
  rw [hgen]
  intro hcontra
  have := congrArg List.length hcontra
  simp [pystr] at this

/-! ### The fallback keyword cascade on the claimed inputs -/

/-- C3 counterexample: the question about users in new york does not
contain the keyword city, and the question about users under 18 does not
contain the keyword age, so neither receives the canned query the claim
asserts; both fall through to the generic template. -/
theorem fallback_claimed_examples_fail :
    fallback_sql (pystr ("show me users in new york"))
      ≠ pystr ("SELECT * FROM users WHERE city = \x27New York\x27 LIMIT 10;") ∧
    fallback_sql (pystr ("users under 18"))
      ≠ pystr ("SELECT * FROM users WHERE age < 18 LIMIT 10;") := by
  constructor
  · decide
  · decide

/-- C3 amended: the cascade drop fires on the delete-all-tables question;
the new-york and under-18 questions match no rule (they lack the literal
keywords city and age) and get the generic template; a question that does
contain under and age gets the regex-extracted threshold; and every
question on which all six keyword tests fail gets the generic template
embedding the question as a comment with the default limit. -/
theorem fallback_keyword_rules :
    fallback_sql (pystr ("delete all tables"))
      = pystr ("-- Drop all tables (CASCADE handles dependencies)\n    DROP TABLE IF EXISTS orders CASCADE;\n    DROP TABLE IF EXISTS users CASCADE;\n    DROP TABLE IF EXISTS query_history CASCADE;") ∧
    fallback_sql (pystr ("show me users in new york"))
      = pystr ("-- Fallback query for: show me users in new york\nSELECT * FROM users LIMIT 10;") ∧
    fallback_sql (pystr ("users under 18"))
      = pystr ("-- Fallback query for: users under 18\nSELECT * FROM users LIMIT 10;") ∧
    fallback_sql (pystr ("show users under 18 by age"))
      = pystr ("SELECT * FROM users WHERE age < 18 LIMIT 10;") ∧
    (∀ q : PyStr,
      ((containsSub (pystr ("delete")) (pyLower q)
          || containsSub (pystr ("drop")) (pyLower q))
        && containsSub (pystr ("table")) (pyLower q)) = false ∧
      (containsSub (pystr ("users")) (pyLower q)
        && containsSub (pystr ("city")) (pyLower q)) = false ∧
      (containsSub (pystr ("orders")) (pyLower q)
        && (containsSub (pystr ("amount")) (pyLower q)
          || containsSub (pystr ("price")) (pyLower q))) = false ∧
      (containsSub (pystr ("count")) (pyLower q)
        && containsSub (pystr ("users")) (pyLower q)) = false ∧
      (containsSub (pystr ("join")) (pyLower q)
        || (containsSub (pystr ("users")) (pyLower q)
          && containsSub (pystr ("orders")) (pyLower q))) = false ∧
      (containsSub (pystr ("under")) (pyLower q)
        && containsSub (pystr ("age")) (pyLower q)) = false →
      fallback_sql q = pystr ("-- Fallback query for: ") ++ q
        ++ pystr ("\nSELECT * FROM users LIMIT 10;")) := by
  refine ⟨by decide, by decide, by decide, by decide, ?_⟩
  rintro q ⟨h1, h2, h3, h4, h5, h6⟩
  rw [fallback_sql]
  rw [if_neg (by rw [h1]; simp), if_neg (by rw [h2]; simp), if_neg (by rw [h3]; simp),
    if_neg (by rw [h4]; simp), if_neg (by rw [h5]; simp), if_neg (by rw [h6]; simp)]

/-- Witness for the amended C3 theorem at a concrete unmatched question. -/
theorem fallback_keyword_rules_witness :
    fallback_sql (pystr ("hello world"))
      = pystr ("-- Fallback query for: hello world\nSELECT * FROM users LIMIT 10;") :=
  fallback_keyword_rules.2.2.2.2 (pystr ("hello world"))
    ⟨by decide, by decide, by decide, by decide, by decide, by decide⟩

/-! ### Cleaning a fenced model response -/

/-- C5: for a model response wrapped in a markdown sql fence (no stray
backticks in the prose before the fence, inside it, or after it), the
cleaning function keeps exactly the fenced content: it strips it, drops
blank lines and unspaced comment lines, rejoins, and terminates with a
semicolon. -/
theorem clean_extracts_fenced (pre body post : PyStr)
    (hpre : containsSub (pystr ("\x60")) pre = false)
    (hbody : containsSub (pystr ("\x60")) body = false)
    (hpost : containsSub (pystr ("\x60")) post = false) :
    clean_sql_response (pre ++ (pystr ("```sql") ++ (body ++ (pystr ("```") ++ post))))
      = ensureSemicolon (filterCommentLines (strip body)) ∧
    endsWithChar ';'
      (rstrip (clean_sql_response
        (pre ++ (pystr ("```sql") ++ (body ++ (pystr ("```") ++ post)))))) = true := by
  have hp : '\x60' ∉ pre := not_mem_of_containsSub_single_false hpre
  have hb : '\x60' ∉ body := not_mem_of_containsSub_single_false hbody
  have hq : '\x60' ∉ post := not_mem_of_containsSub_single_false hpost
  constructor
  · rw [clean_sql_response, cleanExtract_fenced hp hb hq]
  · exact clean_sql_response_ends _

/-- Witness for the C5 theorem at a concrete fenced response. -/
theorem clean_extracts_fenced_witness :
    containsSub (pystr ("\x60")) (pystr ("Here is the SQL:\n")) = false ∧
    containsSub (pystr ("\x60")) (pystr ("\nSELECT *\nFROM users\n")) = false ∧
    containsSub (pystr ("\x60")) (pystr ("\nHope this helps!")) = false ∧
    clean_sql_response (pystr ("Here is the SQL:\n")
        ++ (pystr ("```sql")
          ++ (pystr ("\nSELECT *\nFROM users\n") ++ (pystr ("```") ++ pystr ("\nHope this helps!")))))
      = ensureSemicolon (filterCommentLines (strip (pystr ("\nSELECT *\nFROM users\n")))) :=
  ⟨by decide, by decide, by decide,
    (clean_extracts_fenced (pystr ("Here is the SQL:\n")) (pystr ("\nSELECT *\nFROM users\n"))
      (pystr ("\nHope this helps!")) (by decide) (by decide) (by decide)).1⟩

/-! ### Idempotence of cleaning -/

/-- C6: on every input already terminated by a semicolon (ignoring
trailing whitespace), the cleaning function is idempotent.  (The proof
factors through idempotence on arbitrary inputs.) -/
theorem clean_idempotent (x : PyStr)
    (h : endsWithChar ';' (rstrip x) = true) :
    clean_sql_response (clean_sql_response x) = clean_sql_response x :=
  clean_sql_response_idem x

/-- Witness for the C6 theorem at a concrete semicolon-terminated input. -/
theorem clean_idempotent_witness :
    endsWithChar ';' (rstrip (pystr ("SELECT name FROM users;  "))) = true ∧
    clean_sql_response (clean_sql_response (pystr ("SELECT name FROM users;  ")))
      = clean_sql_response (pystr ("SELECT name FROM users;  ")) :=
  ⟨by decide, clean_idempotent (pystr ("SELECT name FROM users;  ")) (by decide)⟩

/-! ### Curator population, retrieval and the feedback loop -/

lemma staticKnowledgeItems_length : staticKnowledgeItems.length = 16 := rfl

/-- C7: populating the knowledge base is idempotent: a second populate
call sees a non-empty store and returns immediately, so the store state —
and in particular its document count — is the same as after one call. -/
theorem populate_idempotent (schemaInfo : List (PyStr × List ColumnInfo))
    (sampleData : List (PyStr × List Row)) (dump : List Row → PyStr) (s : Store) :
    populate_knowledge_base schemaInfo sampleData dump
        (populate_knowledge_base schemaInfo sampleData dump s)
      = populate_knowledge_base schemaInfo sampleData dump s ∧
    (populate_knowledge_base schemaInfo sampleData dump
        (populate_knowledge_base schemaInfo sampleData dump s)).count
      = (populate_knowledge_base schemaInfo sampleData dump s).count := by
  have hmain : populate_knowledge_base schemaInfo sampleData dump
      (populate_knowledge_base schemaInfo sampleData dump s)
      = populate_knowledge_base schemaInfo sampleData dump s := by
    by_cases h : s.count > 0
    · have h1 : populate_knowledge_base schemaInfo sampleData dump s = s := by
        rw [populate_knowledge_base, if_pos h]
      rw [h1]
      exact h1
    · have h1 : populate_knowledge_base schemaInfo sampleData dump s
          = s.addItems ((populateItems schemaInfo sampleData dump).map cleanItemMeta) := by
        rw [populate_knowledge_base, if_neg h]
      have hpos : (populate_knowledge_base schemaInfo sampleData dump s).count > 0 := by
        rw [h1]
        have h16 := staticKnowledgeItems_length
        simp [Store.count, Store.addItems, populateItems]
        omega
      conv_lhs => rw [populate_knowledge_base]
      rw [if_pos hpos]
  exact ⟨hmain, by rw [hmain]⟩

/-- C8: context retrieval degrades gracefully: an exception from the
query backend yields the empty context, and querying an empty store (for
any similarity ranking, which permutes the stored documents) also yields
the empty context rather than an error. -/
theorem retrieve_context_graceful :
    (∀ e : Exn, retrieve_context (Except.error e) = []) ∧
    (∀ (rank : List KnowledgeItem → List KnowledgeItem) (q k : Nat),
      (∀ l, (rank l).Perm l) →
      retrieve_context (Except.ok (collectionQuery rank ⟨[]⟩ k)) = []) := by
  constructor
  · intro e
    rfl
  · intro rank q k hperm
    have h0 : rank [] = [] := (hperm []).eq_nil
    rw [retrieve_context]
    simp [collectionQuery, h0]

/-- Witness for the C8 theorem: a concrete backend error and a concrete
query against the empty store. -/
theorem retrieve_context_graceful_witness :
    retrieve_context (Except.error (pystr ("index unreachable"))) = [] ∧
    retrieve_context (Except.ok (collectionQuery (fun l => l) ⟨[]⟩ 5)) = [] :=
  ⟨retrieve_context_graceful.1 (pystr ("index unreachable")),
    retrieve_context_graceful.2 (fun l => l) 0 5 (fun l => List.Perm.refl l)⟩

/-- C9: successful feedback is deduplicated by the content-derived id: a
second record of the identical pair is skipped by the existence check, a
failed execution records nothing, and two successive records of a pair
that is new to the store leave exactly one learned document for its id. -/
theorem feedback_dedup (pyHash : PyStr → Int) (s : Store) (q sql : PyStr)
    (hfresh : s.hasId (learnedId pyHash q sql) = false) :
    learn_from_query pyHash (learn_from_query pyHash s q sql true) q sql true
      = learn_from_query pyHash s q sql true ∧
    learn_from_query pyHash s q sql false = s ∧
    (learn_from_query pyHash (learn_from_query pyHash s q sql true) q sql true).countId
        (learnedId pyHash q sql) = 1 := by
  have hlearn : ∀ s' : Store,
      learn_from_query pyHash s' q sql true = add_successful_query pyHash s' q sql :=
    fun s' => rfl
  have h1 : add_successful_query pyHash s q sql
      = s.addItems
        [ { id := learnedId pyHash q sql
          , content := pystr ("Question: \x27") ++ q
              ++ pystr ("\x27 generates SQL: ") ++ sql
          , metadata := [(pystr ("type"), MetaVal.str (pystr ("learned_example"))),
              (pystr ("success"), MetaVal.bool true)] } ] := by
    rw [add_successful_query]
    simp only [hfresh]
    rw [if_neg (by simp)]
  have h2 : (add_successful_query pyHash s q sql).hasId (learnedId pyHash q sql) = true := by
    rw [h1]
    simp [Store.hasId, Store.addItems]
  have h3 : add_successful_query pyHash (add_successful_query pyHash s q sql) q sql
      = add_successful_query pyHash s q sql := by
    rw [add_successful_query]
    simp only [h2]
    simp
  refine ⟨by rw [hlearn, hlearn, h3], rfl, ?_⟩
  rw [hlearn, hlearn, h3, h1]
  have hzero : s.docs.countP (fun d => d.id == learnedId pyHash q sql) = 0 := by
    rw [List.countP_eq_zero]
    intro d hd
    rw [Store.hasId] at hfresh
    have := (List.any_eq_false.mp hfresh) d hd
    simpa using this
  rw [Store.countId, Store.addItems]
  rw [List.countP_append]
  simp [hzero, List.countP_cons]

/-- Witness for the C9 theorem on an initially empty store. -/
theorem feedback_dedup_witness :
    (Store.mk []).hasId (learnedId (fun _ => 0) (pystr ("list users")) (pystr ("SELECT * FROM users;"))) = false ∧
    (learn_from_query (fun _ => 0)
        (learn_from_query (fun _ => 0) (Store.mk []) (pystr ("list users")) (pystr ("SELECT * FROM users;")) true)
        (pystr ("list users")) (pystr ("SELECT * FROM users;")) true).countId
      (learnedId (fun _ => 0) (pystr ("list users")) (pystr ("SELECT * FROM users;"))) = 1 :=
  ⟨by decide,
    (feedback_dedup (fun _ => 0) (Store.mk []) (pystr ("list users"))
      (pystr ("SELECT * FROM users;")) (by decide)).2.2⟩

/-- C10: the learned-example id hashes the bare concatenation of question
and sql, so the distinct pairs (ab, c) and (a, bc) always share an id,
and once the first pair is recorded, recording the second inserts
nothing, for every hash function and every starting store. -/
theorem learned_id_conflates_pairs :
    ((pystr ("ab"), pystr ("c")) : PyStr × PyStr) ≠ (pystr ("a"), pystr ("bc")) ∧
    (∀ pyHash : PyStr → Int,
      learnedId pyHash (pystr ("ab")) (pystr ("c"))
        = learnedId pyHash (pystr ("a")) (pystr ("bc"))) ∧
    (∀ (pyHash : PyStr → Int) (s : Store),
      add_successful_query pyHash
          (add_successful_query pyHash s (pystr ("ab")) (pystr ("c")))
          (pystr ("a")) (pystr ("bc"))
        = add_successful_query pyHash s (pystr ("ab")) (pystr ("c"))) := by
  refine ⟨by decide, fun pyHash => rfl, fun pyHash s => ?_⟩
  have hid : learnedId pyHash (pystr ("a")) (pystr ("bc"))
      = learnedId pyHash (pystr ("ab")) (pystr ("c")) := rfl
  by_cases h : s.hasId (learnedId pyHash (pystr ("ab")) (pystr ("c")))
  · have h1 : add_successful_query pyHash s (pystr ("ab")) (pystr ("c")) = s := by
      rw [add_successful_query]
      simp only [h]
      simp
    rw [h1]
    rw [show add_successful_query pyHash s (pystr ("a")) (pystr ("bc"))
        = if s.hasId (learnedId pyHash (pystr ("a")) (pystr ("bc"))) then s
          else s.addItems
            [ { id := learnedId pyHash (pystr ("a")) (pystr ("bc"))
              , content := pystr ("Question: \x27") ++ pystr ("a")
                  ++ pystr ("\x27 generates SQL: ") ++ pystr ("bc")
              , metadata := [(pystr ("type"), MetaVal.str (pystr ("learned_example"))),
                  (pystr ("success"), MetaVal.bool true)] } ] from rfl]
    rw [hid, if_pos h]
  · have hfalse : s.hasId (learnedId pyHash (pystr ("ab")) (pystr ("c"))) = false := by
      cases hv : s.hasId (learnedId pyHash (pystr ("ab")) (pystr ("c")))
      · rfl
      · exact absurd hv h
    have h1 : add_successful_query pyHash s (pystr ("ab")) (pystr ("c"))
        = s.addItems
          [ { id := learnedId pyHash (pystr ("ab")) (pystr ("c"))
            , content := pystr ("Question: \x27") ++ pystr ("ab")
                ++ pystr ("\x27 generates SQL: ") ++ pystr ("c")
            , metadata := [(pystr ("type"), MetaVal.str (pystr ("learned_example"))),
                (pystr ("success"), MetaVal.bool true)] } ] := by
      rw [add_successful_query]
      simp only [hfalse]
      rw [if_neg (by simp)]
    have h2 : (add_successful_query pyHash s (pystr ("ab")) (pystr ("c"))).hasId
        (learnedId pyHash (pystr ("a")) (pystr ("bc"))) = true := by
      rw [hid, h1]
      simp [Store.hasId, Store.addItems]
    rw [show add_successful_query pyHash
        (add_successful_query pyHash s (pystr ("ab")) (pystr ("c")))
        (pystr ("a")) (pystr ("bc"))
        = if (add_successful_query pyHash s (pystr ("ab")) (pystr ("c"))).hasId
            (learnedId pyHash (pystr ("a")) (pystr ("bc")))
          then add_successful_query pyHash s (pystr ("ab")) (pystr ("c"))
          else (add_successful_query pyHash s (pystr ("ab")) (pystr ("c"))).addItems
            [ { id := learnedId pyHash (pystr ("a")) (pystr ("bc"))
              , content := pystr ("Question: \x27") ++ pystr ("a")
                  ++ pystr ("\x27 generates SQL: ") ++ pystr ("bc")
              , metadata := [(pystr ("type"), MetaVal.str (pystr ("learned_example"))),
                  (pystr ("success"), MetaVal.bool true)] } ] from rfl]
    rw [if_pos (by rw [h2])]

/-- Witness for the C10 theorem at a concrete hash and the empty store. -/
theorem learned_id_conflates_pairs_witness :
    add_successful_query (fun _ => 0)
        (add_successful_query (fun _ => 0) (Store.mk []) (pystr ("ab")) (pystr ("c")))
        (pystr ("a")) (pystr ("bc"))
      = add_successful_query (fun _ => 0) (Store.mk []) (pystr ("ab")) (pystr ("c")) :=
  learned_id_conflates_pairs.2.2 (fun _ => 0) (Store.mk [])

end NaturalToSql
